import Mathlib

/-!
Verification development for the offline synchronization subsystem of a
local-first clinic management application.

The embedding models the local SQLite cache (`database/local_cache.py`), the
sync queue (`database/sync_queue.py`), the conflict detector and resolver
(`sync/conflict_handler.py`), the conflict audit log (`sync/audit_log.py`),
the batch synchronizer (`sync/batch_sync.py`) and the sync manager
(`database/sync_manager.py`).

Conventions of the embedding:
* Python/JSON values stored in rows and payloads are modelled by `Val`.
* The local SQLite database is a list of rows tagged with their table name.
  SQLite's schema checking is modelled by `schemaColumns`, derived from the
  `CREATE TABLE` statements of `LocalCache._initialize_database`: inserting
  into a table that does not exist, or mentioning a column that is not in
  the table's schema, is an `OperationalError`, modelled by `Except.error`.
  Each mutating cache operation runs in a transaction, so an error leaves
  the database unchanged.
* External library functions (`json.dumps`, `json.loads`,
  `datetime.fromisoformat`) and nondeterministic inputs (`uuid.uuid4()`,
  `datetime.utcnow()`) are parameters, bundled in `Env`.  Timestamps parse
  to `Int` so that parsed timestamps are totally ordered.
* The remote (Supabase) store is a second list of rows; its row-oriented
  API (`select/insert/update/delete ... eq`) is modelled directly.
-/

/-- A Python/JSON-style value as stored in rows and payloads. -/
inductive Val where
  | null : Val
  | bool (b : Bool) : Val
  | int (n : Int) : Val
  | str (s : String) : Val
  | dict (fields : List (String × Val)) : Val
deriving Repr

mutual

/-- Decidable equality on values (hand-written: the nested list inside
`Val.dict` defeats the automatic deriving). -/
def Val.decEq : (a b : Val) → Decidable (a = b)
  | .null, .null => isTrue rfl
  | .null, .bool _ => isFalse (fun h => Val.noConfusion h)
  | .null, .int _ => isFalse (fun h => Val.noConfusion h)
  | .null, .str _ => isFalse (fun h => Val.noConfusion h)
  | .null, .dict _ => isFalse (fun h => Val.noConfusion h)
  | .bool _, .null => isFalse (fun h => Val.noConfusion h)
  | .bool x, .bool y =>
    if h : x = y then isTrue (by rw [h]) else isFalse (fun hh => by cases hh; exact h rfl)
  | .bool _, .int _ => isFalse (fun h => Val.noConfusion h)
  | .bool _, .str _ => isFalse (fun h => Val.noConfusion h)
  | .bool _, .dict _ => isFalse (fun h => Val.noConfusion h)
  | .int _, .null => isFalse (fun h => Val.noConfusion h)
  | .int _, .bool _ => isFalse (fun h => Val.noConfusion h)
  | .int x, .int y =>
    if h : x = y then isTrue (by rw [h]) else isFalse (fun hh => by cases hh; exact h rfl)
  | .int _, .str _ => isFalse (fun h => Val.noConfusion h)
  | .int _, .dict _ => isFalse (fun h => Val.noConfusion h)
  | .str _, .null => isFalse (fun h => Val.noConfusion h)
  | .str _, .bool _ => isFalse (fun h => Val.noConfusion h)
  | .str _, .int _ => isFalse (fun h => Val.noConfusion h)
  | .str x, .str y =>
    if h : x = y then isTrue (by rw [h]) else isFalse (fun hh => by cases hh; exact h rfl)
  | .str _, .dict _ => isFalse (fun h => Val.noConfusion h)
  | .dict _, .null => isFalse (fun h => Val.noConfusion h)
  | .dict _, .bool _ => isFalse (fun h => Val.noConfusion h)
  | .dict _, .int _ => isFalse (fun h => Val.noConfusion h)
  | .dict _, .str _ => isFalse (fun h => Val.noConfusion h)
  | .dict x, .dict y =>
    match Val.decEqList x y with
    | isTrue h => isTrue (by rw [h])
    | isFalse h => isFalse (fun hh => by cases hh; exact h rfl)

/-- Decidable equality on the field lists inside `Val.dict`. -/
def Val.decEqList : (a b : List (String × Val)) → Decidable (a = b)
  | [], [] => isTrue rfl
  | [], _ :: _ => isFalse (fun h => List.noConfusion h)
  | _ :: _, [] => isFalse (fun h => List.noConfusion h)
  | (k1, v1) :: r1, (k2, v2) :: r2 =>
    if hk : k1 = k2 then
      match Val.decEq v1 v2, Val.decEqList r1 r2 with
      | isTrue hv, isTrue hr => isTrue (by rw [hk, hv, hr])
      | isFalse hv, _ => isFalse (fun h => by cases h; exact hv rfl)
      | isTrue _, isFalse hr => isFalse (fun h => by cases h; exact hr rfl)
    else isFalse (fun h => by cases h; exact hk rfl)

end

instance : DecidableEq Val := Val.decEq

instance : BEq Val := ⟨fun a b => decide (a = b)⟩

instance : LawfulBEq Val where
  eq_of_beq h := by simpa [BEq.beq] using h
  rfl := by simp [BEq.beq]

/-- A Python dict / decoded JSON object: an ordered association list. -/
abbrev Dict := List (String × Val)

/-- `d.get(k)`: `none` when the key is absent (Python returns the stored
value, including `None`, whenever the key is present). -/
def dget (d : Dict) (k : String) : Option Val :=
  match d.find? (fun p => p.1 == k) with
  | some p => some p.2
  | none => none

/-- `d.keys()`. -/
def dkeys (d : Dict) : List String := d.map (fun p => p.1)

/-- `d[k] = v`: overwrite in place if the key exists, else append
(Python dicts preserve insertion order). -/
def dset (d : Dict) (k : String) (v : Val) : Dict :=
  if d.any (fun p => p.1 == k) then
    d.map (fun p => if p.1 == k then (k, v) else p)
  else d ++ [(k, v)]

/-- Apply every assignment of `upd` to `base` (the effect of an SQL
`UPDATE ... SET` on one row's column values). -/
def dmerge (base upd : Dict) : Dict := upd.foldl (fun acc p => dset acc p.1 p.2) base

/-- Python truthiness of a value. -/
def Val.truthy : Val → Bool
  | .null => false
  | .bool b => b
  | .int n => n != 0
  | .str s => s != ""
  | .dict d => !d.isEmpty

/-- Python truthiness of the result of a `.get` (absent key is falsy). -/
def truthyO : Option Val → Bool
  | none => false
  | some v => v.truthy

/-- SQL `=` comparison: any comparison against NULL is not a match. -/
def sqlEq (a b : Val) : Bool :=
  match a, b with
  | .null, _ => false
  | _, .null => false
  | a, b => a == b

/-- One stored row: the table it belongs to and its column values. -/
structure Row where
  table : String
  fields : Dict
deriving Repr, DecidableEq

/-- The local SQLite database (WAL-mode file): all rows of all tables. -/
abbrev DB := List Row

/-- Columns of each table created by `LocalCache._initialize_database`.
`none` means the table does not exist (notably there is no
`conflict_audit` table, and `sync_queue` has no `updated_at` column). -/
def schemaColumns (tbl : String) : Option (List String) :=
  if tbl == "clients" then
    some ["id", "first_name", "last_name", "phone", "email", "date_of_birth",
          "address", "medical_history", "notes", "created_at", "updated_at",
          "last_modified_by", "created_by", "pending_sync", "sync_status",
          "original_data", "last_synced_at"]
  else if tbl == "doctors" then
    some ["id", "user_id", "specialization", "license_number", "hire_date",
          "is_active", "created_at", "updated_at", "last_modified_by",
          "pending_sync", "sync_status", "original_data", "last_synced_at"]
  else if tbl == "staff" then
    some ["id", "user_id", "position", "hire_date", "is_active", "created_at",
          "updated_at", "last_modified_by", "pending_sync", "sync_status",
          "original_data", "last_synced_at"]
  else if tbl == "rooms" then
    some ["id", "room_number", "room_type", "capacity", "is_available",
          "created_at", "updated_at", "last_modified_by", "pending_sync",
          "sync_status", "original_data", "last_synced_at"]
  else if tbl == "equipment" then
    some ["id", "room_id", "equipment_name", "equipment_type", "serial_number",
          "status", "created_at", "updated_at", "pending_sync", "sync_status",
          "original_data", "last_synced_at"]
  else if tbl == "reservations" then
    some ["id", "client_id", "doctor_id", "room_id", "reservation_date",
          "start_time_utc", "end_time_utc", "status", "notes", "locked_until",
          "created_by", "created_at", "updated_at", "last_modified_by",
          "pending_sync", "sync_status", "original_data", "last_synced_at"]
  else if tbl == "payments" then
    some ["id", "reservation_id", "client_id", "amount", "payment_method",
          "payment_date_utc", "status", "notes", "processed_by", "created_at",
          "updated_at", "last_modified_by", "pending_sync", "sync_status",
          "original_data", "last_synced_at"]
  else if tbl == "sync_queue" then
    some ["id", "table_name", "record_id", "operation", "local_data",
          "remote_data", "status", "created_at", "synced_at"]
  else if tbl == "users" then
    some ["id", "username", "email", "password_hash", "full_name", "is_active",
          "created_at", "updated_at", "last_login_at"]
  else if tbl == "user_roles" then
    some ["id", "user_id", "role", "created_at"]
  else none

/-- A `SELECT *` row as returned through `sqlite3.Row`: every schema column
is present, NULL for unset columns. -/
def rowDict (cols : List String) (f : Dict) : Dict :=
  cols.map (fun c => (c, (dget f c).getD .null))

/-- The Python-side `if limit:` guard before adding a `LIMIT` clause
(a limit of 0 is falsy and means no limit). -/
def applyLimit (limit : Option Nat) (rows : List Dict) : List Dict :=
  match limit with
  | some n => if n == 0 then rows else rows.take n
  | none => rows

/-- Does row `r` of table `tbl` have primary key `idv` (SQL comparison)? -/
def rowHasId (tbl : String) (idv : Val) (r : Row) : Bool :=
  r.table == tbl && sqlEq ((dget r.fields "id").getD .null) idv

/-- `INSERT OR REPLACE`: drop any row of the table with the same (non-NULL)
primary key, then append the new row (a replaced row gets a fresh rowid,
hence moves to the end in unordered scans). -/
def insertRow (db : DB) (tbl : String) (f : Dict) : DB :=
  db.filter (fun r => !(rowHasId tbl ((dget f "id").getD .null) r)) ++ [⟨tbl, f⟩]

/-- External library functions and call-time nondeterminism:
`json.dumps`; `json.loads` (`none` = raises); `parseTs`, modelling
`datetime.fromisoformat(s.replace('Z', '+00:00'))` (`none` = `ValueError`;
parsed timestamps are totally ordered as `Int`); the `uuid.uuid4()` drawn
for this call; and `datetime.utcnow().isoformat()`. -/
structure Env where
  dumps : Val → String
  loads : String → Option Val
  parseTs : String → Option Int
  genId : String
  now : String

/-- `LocalCache.query`: `SELECT * FROM tbl [WHERE k = ? AND ...] [LIMIT n]`.
Errors when the table or a filtered column does not exist. -/
def LocalCache.query (db : DB) (tbl : String) (filters : List (String × Val))
    (limit : Option Nat) : Except String (List Dict) :=
  match schemaColumns tbl with
  | none => .error ("no such table: " ++ tbl)
  | some cols =>
    if filters.all (fun p => cols.contains p.1) then
      .ok (applyLimit limit
        ((db.filter (fun r => r.table == tbl &&
            filters.all (fun p => sqlEq ((dget r.fields p.1).getD .null) p.2))).map
          (fun r => rowDict cols r.fields)))
    else .error "no such column"

/-- `LocalCache.get`: `SELECT * FROM tbl WHERE id = ?`, `fetchone`. -/
def LocalCache.get (db : DB) (tbl : String) (idv : Val) : Except String (Option Dict) :=
  match LocalCache.query db tbl [("id", idv)] none with
  | .error e => .error e
  | .ok rows => .ok rows.head?

/-- `LocalCache.insert`: assigns an id if absent, stamps `created_at` and
`updated_at` (unconditionally adding an `updated_at` key), optionally adds
the pending-sync bookkeeping fields, then `INSERT OR REPLACE`.  The insert
fails if the table is missing or any data key is not one of its columns;
the transaction then rolls back, leaving the database unchanged. -/
def LocalCache.insert (env : Env) (db : DB) (tbl : String) (data : Dict)
    (markPending : Bool) : (Except String Val) × DB :=
  let rid := (dget data "id").getD (.str env.genId)
  let d1 := dset data "id" rid
  let d2 := dset d1 "created_at" ((dget d1 "created_at").getD (.str env.now))
  let d3 := dset d2 "updated_at" ((dget d2 "updated_at").getD (.str env.now))
  let d4 :=
    if markPending then
      let dp := dset (dset d3 "pending_sync" (.int 1)) "sync_status" (.str "pending")
      dset dp "original_data" (.str (env.dumps (.dict dp)))
    else d3
  match schemaColumns tbl with
  | none => (.error ("no such table: " ++ tbl), db)
  | some cols =>
    if (dkeys d4).all (fun k => cols.contains k) then
      (.ok rid, insertRow db tbl d4)
    else (.error "no such column", db)

/-- `LocalCache.update`: reads the pre-image, stamps `updated_at`
(unconditionally adding an `updated_at` key), optionally adds the
pending-sync bookkeeping, then `UPDATE ... SET ... WHERE id = ?`.
Returns whether any row matched. -/
def LocalCache.update (env : Env) (db : DB) (tbl : String) (idv : Val) (data : Dict)
    (markPending : Bool) : (Except String Bool) × DB :=
  match LocalCache.get db tbl idv with
  | .error e => (.error e, db)
  | .ok original =>
    let d1 := dset data "updated_at" (.str env.now)
    let d2 :=
      match markPending, original with
      | true, some o =>
        dset (dset (dset d1 "original_data" (.str (env.dumps (.dict o))))
          "pending_sync" (.int 1)) "sync_status" (.str "pending")
      | _, _ => d1
    match schemaColumns tbl with
    | none => (.error ("no such table: " ++ tbl), db)
    | some cols =>
      if (dkeys d2).all (fun k => cols.contains k) then
        (.ok (db.any (rowHasId tbl idv)),
         db.map (fun r => if rowHasId tbl idv r then { r with fields := dmerge r.fields d2 } else r))
      else (.error "no such column", db)

/-- `json.dumps(x) if x else None` applied to an optional snapshot. -/
def optDumps (env : Env) (d : Option Dict) : Val :=
  match d with
  | some l => if l.isEmpty then .null else .str (env.dumps (.dict l))
  | none => .null

/-- `LocalCache._add_to_sync_queue`: builds a pending queue entry and stores
it through `LocalCache.insert` (whose unconditional `updated_at` stamp then
targets a column the `sync_queue` table does not have). -/
def LocalCache.addToSyncQueue (env : Env) (db : DB) (tbl : String) (ridv : Val)
    (opName : String) (localD remoteD : Option Dict) : (Except String Unit) × DB :=
  let qd : Dict := [
    ("id", .str env.genId),
    ("table_name", .str tbl),
    ("record_id", ridv),
    ("operation", .str opName),
    ("local_data", optDumps env localD),
    ("remote_data", optDumps env remoteD),
    ("status", .str "pending"),
    ("created_at", .str env.now)]
  match LocalCache.insert env db "sync_queue" qd false with
  | (.error e, db1) => (.error e, db1)
  | (.ok _, db1) => (.ok (), db1)

/-- `LocalCache.delete`: with `markPending` it first enqueues a pending
`delete` entry (its own transaction), then `DELETE FROM tbl WHERE id = ?`
(another transaction).  Returns whether a row was removed. -/
def LocalCache.delete (env : Env) (db : DB) (tbl : String) (idv : Val)
    (markPending : Bool) : (Except String Bool) × DB :=
  match (if markPending then LocalCache.addToSyncQueue env db tbl idv "delete" none none
         else (.ok (), db)) with
  | (.error e, db1) => (.error e, db1)
  | (.ok _, db1) =>
    match schemaColumns tbl with
    | none => (.error ("no such table: " ++ tbl), db1)
    | some _ =>
      (.ok (db1.any (rowHasId tbl idv)), db1.filter (fun r => !(rowHasId tbl idv r)))

/-- Does a `sync_queue` row match the raw
`WHERE table_name = ? AND record_id = ?` of `LocalCache.mark_synced`? -/
def queueRowMatches (tbl : String) (ridv : Val) (r : Row) : Bool :=
  r.table == "sync_queue" &&
    sqlEq ((dget r.fields "table_name").getD .null) (.str tbl) &&
    sqlEq ((dget r.fields "record_id").getD .null) ridv

/-- `LocalCache.mark_synced`: update the domain row's bookkeeping columns,
then raw-SQL-update every `sync_queue` row for that (table, record) to
`synced`. -/
def LocalCache.mark_synced (env : Env) (db : DB) (tbl : String) (ridv : Val) :
    (Except String Unit) × DB :=
  let data : Dict := [("pending_sync", .int 0), ("sync_status", .str "synced"),
                      ("last_synced_at", .str env.now)]
  match LocalCache.update env db tbl ridv data false with
  | (.error e, db1) => (.error e, db1)
  | (.ok _, db1) =>
    (.ok (), db1.map (fun r =>
      if queueRowMatches tbl ridv r then
        { r with fields := dmerge r.fields [("status", .str "synced"), ("synced_at", .str env.now)] }
      else r))

/-- `SyncQueue.add_operation`: append a fresh pending entry. -/
def SyncQueue.add_operation (env : Env) (db : DB) (tbl : String) (ridv : Val)
    (opName : String) (localD remoteD : Option Dict) : (Except String Unit) × DB :=
  let item : Dict := [
    ("id", .str env.genId),
    ("table_name", .str tbl),
    ("record_id", ridv),
    ("operation", .str opName),
    ("local_data", optDumps env localD),
    ("remote_data", optDumps env remoteD),
    ("status", .str "pending"),
    ("created_at", .str env.now)]
  match LocalCache.insert env db "sync_queue" item false with
  | (.error e, db1) => (.error e, db1)
  | (.ok _, db1) => (.ok (), db1)

/-- The `try: op[k] = json.loads(op[k]) except: pass` decoding of a snapshot
column, attempted only when the stored value is truthy. -/
def decodePayloadField (env : Env) (d : Dict) (k : String) : Dict :=
  if truthyO (dget d k) then
    match dget d k with
    | some (.str s) =>
      match env.loads s with
      | some v => dset d k v
      | none => d
    | _ => d
  else d

/-- `SyncQueue.get_pending_operations`: query `pending` entries (optionally
per table), then decode the JSON snapshot columns. -/
def SyncQueue.get_pending_operations (env : Env) (db : DB) (tbl : Option String)
    (limit : Option Nat) : Except String (List Dict) :=
  let filters := ("status", Val.str "pending") ::
    (match tbl with | some t => [("table_name", Val.str t)] | none => [])
  match LocalCache.query db "sync_queue" filters limit with
  | .error e => .error e
  | .ok ops =>
    .ok (ops.map (fun op => decodePayloadField env (decodePayloadField env op "local_data") "remote_data"))

/-- `SyncQueue.mark_synced`: set the entry's status to `synced` through the
generic cache update (which also stamps `updated_at`). -/
def SyncQueue.mark_synced (env : Env) (db : DB) (qid : Val) (syncedAt : Option String) :
    (Except String Unit) × DB :=
  let data : Dict := [("status", .str "synced"), ("synced_at", .str (syncedAt.getD env.now))]
  match LocalCache.update env db "sync_queue" qid data false with
  | (.error e, db1) => (.error e, db1)
  | (.ok _, db1) => (.ok (), db1)

/-- `SyncQueue.mark_conflict`: set status `conflict`, optionally attaching
the remote snapshot, through the generic cache update. -/
def SyncQueue.mark_conflict (env : Env) (db : DB) (qid : Val) (remoteD : Option Dict) :
    (Except String Unit) × DB :=
  let data : Dict := ("status", Val.str "conflict") ::
    (match remoteD with
     | some l => if l.isEmpty then [] else [("remote_data", Val.str (env.dumps (.dict l)))]
     | none => [])
  match LocalCache.update env db "sync_queue" qid data false with
  | (.error e, db1) => (.error e, db1)
  | (.ok _, db1) => (.ok (), db1)

/-- `SyncQueue.remove_operation`: plain delete, no pending marker. -/
def SyncQueue.remove_operation (env : Env) (db : DB) (qid : Val) :
    (Except String Unit) × DB :=
  match LocalCache.delete env db "sync_queue" qid false with
  | (.error e, db1) => (.error e, db1)
  | (.ok _, db1) => (.ok (), db1)

/-- `SyncQueue.get_conflicts`: all entries currently in `conflict` status. -/
def SyncQueue.get_conflicts (db : DB) : Except String (List Dict) :=
  LocalCache.query db "sync_queue" [("status", .str "conflict")] none

/-- The remote (Supabase) store: rows tagged with their table. -/
abbrev RemoteDB := List Row

/-- `client.table(tbl).select('*').eq(key, v).execute().data`. -/
def Remote.selectEq (rdb : RemoteDB) (tbl key : String) (v : Val) : List Dict :=
  (rdb.filter (fun r => r.table == tbl && sqlEq ((dget r.fields key).getD .null) v)).map
    (fun r => r.fields)

/-- `client.table(tbl).update(data).eq(key, v).execute()`: merge `data` into
every matching row; `.data` of the response is the list of updated rows. -/
def Remote.updateEq (rdb : RemoteDB) (tbl : String) (data : Dict) (key : String)
    (v : Val) : List Dict × RemoteDB :=
  let rdb1 := rdb.map (fun r =>
    if r.table == tbl && sqlEq ((dget r.fields key).getD .null) v then
      { r with fields := dmerge r.fields data }
    else r)
  ((rdb1.filter (fun r => r.table == tbl && sqlEq ((dget r.fields key).getD .null) v)).map
    (fun r => r.fields), rdb1)

/-- `client.table(tbl).insert(data).execute()`: append; `.data` holds the
inserted row. -/
def Remote.insert (rdb : RemoteDB) (tbl : String) (data : Dict) : List Dict × RemoteDB :=
  ([data], rdb ++ [⟨tbl, data⟩])

/-- `client.table(tbl).delete().eq(key, v).execute()`. -/
def Remote.deleteEq (rdb : RemoteDB) (tbl key : String) (v : Val) : RemoteDB :=
  rdb.filter (fun r => !(r.table == tbl && sqlEq ((dget r.fields key).getD .null) v))

/-- Combined state of the local cache and the remote store. -/
structure SyncState where
  ldb : DB
  rdb : RemoteDB
deriving Repr, DecidableEq

/-- The bookkeeping columns stripped before talking to the remote store. -/
def syncFields : List String := ["pending_sync", "sync_status", "original_data", "last_synced_at"]

/-- `{k: v for k, v in d.items() if k not in sync_fields}`. -/
def stripSyncFields (d : Dict) : Dict := d.filter (fun p => !(syncFields.contains p.1))

/-- `ConflictHandler.check_conflict`: fetch the remote record; no remote
record, a missing/falsy timestamp, a non-string timestamp (attribute error
caught by the outer handler) or an unparsable timestamp (ValueError) all
report no conflict; otherwise a conflict descriptor exactly when the remote
timestamp is strictly newer. -/
def ConflictHandler.check_conflict (env : Env) (rdb : RemoteDB) (tbl : String)
    (ridv : Val) (local_data : Dict) : Option Dict :=
  match Remote.selectEq rdb tbl "id" ridv with
  | [] => none
  | remote_data :: _ =>
    let lu := dget local_data "updated_at"
    let ru := dget remote_data "updated_at"
    if !truthyO lu || !truthyO ru then none
    else
      match lu, ru with
      | some (.str ls), some (.str rs) =>
        match env.parseTs ls, env.parseTs rs with
        | some lt, some rt =>
          if lt < rt then
            some [("type", .str "timestamp_conflict"),
                  ("local_data", .dict local_data),
                  ("remote_data", .dict remote_data),
                  ("local_updated", .str ls),
                  ("remote_updated", .str rs)]
          else none
        | _, _ => none
      | _, _ => none

/-- Python truthiness of the optional `data` argument of
`resolve_conflict` (`None` and `{}` are falsy). -/
def dataTruthy (d : Option Dict) : Bool :=
  match d with
  | some l => !l.isEmpty
  | none => false

/-- `ConflictHandler.resolve_conflict`: look up the queue item and apply the
chosen resolution; every exception along the way is caught by the outer
handler and turns into `False`, keeping whatever state changes already
committed. -/
def ConflictHandler.resolve_conflict (env : Env) (st : SyncState) (qid : Val)
    (resolution : String) (data : Option Dict) : Bool × SyncState :=
  match LocalCache.get st.ldb "sync_queue" qid with
  | .error _ => (false, st)
  | .ok none => (false, st)
  | .ok (some qi) =>
    let tv := (dget qi "table_name").getD .null
    let ridv := (dget qi "record_id").getD .null
    if resolution == "local" then
      let ld0 := (dget qi "local_data").getD .null
      let ld1 : Option Val :=
        match ld0 with
        | .str s => env.loads s
        | v => some v
      match ld1 with
      | none => (false, st)
      | some (.dict d) =>
        match tv with
        | .str tbl =>
          let clean := stripSyncFields d
          let rdb1 := (Remote.updateEq st.rdb tbl clean "id" ridv).2
          match LocalCache.mark_synced env st.ldb tbl ridv with
          | (.error _, ldb1) => (false, { ldb := ldb1, rdb := rdb1 })
          | (.ok _, ldb1) =>
            match SyncQueue.mark_synced env ldb1 qid none with
            | (.error _, ldb2) => (false, { ldb := ldb2, rdb := rdb1 })
            | (.ok _, ldb2) => (true, { ldb := ldb2, rdb := rdb1 })
        | _ => (false, st)
      | some _ => (false, st)
    else if resolution == "remote" then
      match tv with
      | .str tbl =>
        match Remote.selectEq st.rdb tbl "id" ridv with
        | rd :: _ =>
          match LocalCache.insert env st.ldb tbl rd false with
          | (.error _, ldb1) => (false, { st with ldb := ldb1 })
          | (.ok _, ldb1) =>
            match SyncQueue.mark_synced env ldb1 qid none with
            | (.error _, ldb2) => (false, { st with ldb := ldb2 })
            | (.ok _, ldb2) => (true, { st with ldb := ldb2 })
        | [] => (true, st)
      | _ => (false, st)
    else if resolution == "merge" && dataTruthy data then
      match data with
      | some d =>
        match tv with
        | .str tbl =>
          let clean := stripSyncFields d
          let rdb1 := (Remote.updateEq st.rdb tbl clean "id" ridv).2
          match LocalCache.insert env st.ldb tbl clean false with
          | (.error _, ldb1) => (false, { ldb := ldb1, rdb := rdb1 })
          | (.ok _, ldb1) =>
            match SyncQueue.mark_synced env ldb1 qid none with
            | (.error _, ldb2) => (false, { ldb := ldb2, rdb := rdb1 })
            | (.ok _, ldb2) => (true, { ldb := ldb2, rdb := rdb1 })
        | _ => (false, st)
      | none => (false, st)
    else (false, st)

/-- `ConflictHandler.auto_resolve_conflict`: last-write-wins.  A missing or
non-string timestamp raises (caught, `False`); an unparsable one raises
`ValueError` (caught, `False`); otherwise delegate to `resolve_conflict`
with `"remote"` exactly when the remote timestamp is strictly newer. -/
def ConflictHandler.auto_resolve_conflict (env : Env) (st : SyncState)
    (conflict : Dict) : Bool × SyncState :=
  let lu := dget conflict "local_updated"
  let ru := dget conflict "remote_updated"
  match lu, ru with
  | some (.str ls), some (.str rs) =>
    match env.parseTs ls, env.parseTs rs with
    | some lt, some rt =>
      let qid := (dget conflict "queue_id").getD (.str "")
      if lt < rt then ConflictHandler.resolve_conflict env st qid "remote" none
      else ConflictHandler.resolve_conflict env st qid "local" none
    | _, _ => (false, st)
  | _, _ => (false, st)

/-- `ConflictAudit.log_conflict`: build the audit entry; try the remote sink
(`remoteUp` models whether the Supabase client is reachable); on failure
fall back to `local_cache.insert('conflict_audit', entry, mark_pending=True)`.
An exception from the fallback propagates out of the `except` block. -/
def ConflictAudit.log_conflict (env : Env) (remoteUp : Bool) (st : SyncState)
    (tblName ridS ctype : String) (localD remoteD : Dict) (resolution : String)
    (resolvedBy : Option String) : (Except String String) × SyncState :=
  let entry : Dict := [
    ("id", .str env.genId),
    ("table_name", .str tblName),
    ("record_id", .str ridS),
    ("conflict_type", .str ctype),
    ("local_data", .str (env.dumps (.dict localD))),
    ("remote_data", .str (env.dumps (.dict remoteD))),
    ("resolution", .str resolution),
    ("resolved_by", match resolvedBy with | some s => .str s | none => .null),
    ("resolved_at", .str env.now),
    ("created_at", .str env.now)]
  if remoteUp then
    (.ok env.genId, { st with rdb := (Remote.insert st.rdb "conflict_audit" entry).2 })
  else
    match LocalCache.insert env st.ldb "conflict_audit" entry true with
    | (.error e, ldb1) => (.error e, { st with ldb := ldb1 })
    | (.ok _, ldb1) => (.ok env.genId, { st with ldb := ldb1 })

/-- The aggregated result of a batch pass. -/
structure BatchRes where
  synced : Nat
  failed : Nat
  conflicts : Nat
  errors : List String
deriving Repr, DecidableEq

/-- The zero-initialised results dict. -/
def BatchRes.zero : BatchRes := ⟨0, 0, 0, []⟩

/-- Accumulate counters and error strings. -/
def BatchRes.add (a b : BatchRes) : BatchRes :=
  ⟨a.synced + b.synced, a.failed + b.failed, a.conflicts + b.conflicts, a.errors ++ b.errors⟩

/-- One iteration of the `_batch_create` loop for one queue entry: skip
falsy snapshots; a non-dict snapshot raises at `.items()` (caught, failed);
otherwise insert remotely, then mark the local row and the queue entry
synced, counting any raised step as failed while keeping prior effects. -/
def BatchSync.createOne (env : Env) (tbl : String) (st : SyncState) (op : Dict) :
    BatchRes × SyncState :=
  let ld := (dget op "local_data").getD (.dict [])
  if !ld.truthy then (BatchRes.zero, st)
  else
    match ld with
    | .dict d =>
      let clean := stripSyncFields d
      let res := Remote.insert st.rdb tbl clean
      if !res.1.isEmpty then
        let ridv := (dget d "id").getD .null
        match LocalCache.mark_synced env st.ldb tbl ridv with
        | (.error e, ldb1) => (⟨0, 1, 0, [e]⟩, { ldb := ldb1, rdb := res.2 })
        | (.ok _, ldb1) =>
          match dget op "id" with
          | none => (⟨0, 1, 0, ["KeyError: id"]⟩, { ldb := ldb1, rdb := res.2 })
          | some qidv =>
            match SyncQueue.mark_synced env ldb1 qidv none with
            | (.error e, ldb2) => (⟨0, 1, 0, [e]⟩, { ldb := ldb2, rdb := res.2 })
            | (.ok _, ldb2) => (⟨1, 0, 0, []⟩, { ldb := ldb2, rdb := res.2 })
      else (⟨0, 1, 0, ["create failed"]⟩, { st with rdb := res.2 })
    | _ => (⟨0, 1, 0, ["not a dict"]⟩, st)

/-- `_batch_create`: process every create entry in order; the third
component is the processing trace (entries in iteration order). -/
def BatchSync.batch_create (env : Env) (tbl : String) (st : SyncState) :
    List Dict → BatchRes × SyncState × List Dict
  | [] => (BatchRes.zero, st, [])
  | op :: rest =>
    let h := BatchSync.createOne env tbl st op
    let t := BatchSync.batch_create env tbl h.2 rest
    (BatchRes.add h.1 t.1, t.2.1, op :: t.2.2)

/-- One iteration of the `_batch_update` loop: a missing `record_id` key
raises (failed); falsy snapshots are skipped; the conflict detector gates
the update; a detected conflict is recorded via `mark_conflict` (whose own
failure counts as failed); otherwise push the update and mark synced. -/
def BatchSync.updateOne (env : Env) (tbl : String) (st : SyncState) (op : Dict) :
    BatchRes × SyncState :=
  match dget op "record_id" with
  | none => (⟨0, 1, 0, ["KeyError: record_id"]⟩, st)
  | some ridv =>
    let ld := (dget op "local_data").getD (.dict [])
    if !ld.truthy then (BatchRes.zero, st)
    else
      match ld with
      | .dict d =>
        match ConflictHandler.check_conflict env st.rdb tbl ridv d with
        | some c =>
          let rdOpt : Option Dict :=
            match dget c "remote_data" with | some (.dict rd) => some rd | _ => none
          match dget op "id" with
          | none => (⟨0, 1, 0, ["KeyError: id"]⟩, st)
          | some qidv =>
            match SyncQueue.mark_conflict env st.ldb qidv rdOpt with
            | (.error e, ldb1) => (⟨0, 1, 0, [e]⟩, { st with ldb := ldb1 })
            | (.ok _, ldb1) => (⟨0, 0, 1, []⟩, { st with ldb := ldb1 })
        | none =>
          let clean := stripSyncFields d
          let res := Remote.updateEq st.rdb tbl clean "id" ridv
          if !res.1.isEmpty then
            match LocalCache.mark_synced env st.ldb tbl ridv with
            | (.error e, ldb1) => (⟨0, 1, 0, [e]⟩, { ldb := ldb1, rdb := res.2 })
            | (.ok _, ldb1) =>
              match dget op "id" with
              | none => (⟨0, 1, 0, ["KeyError: id"]⟩, { ldb := ldb1, rdb := res.2 })
              | some qidv =>
                match SyncQueue.mark_synced env ldb1 qidv none with
                | (.error e, ldb2) => (⟨0, 1, 0, [e]⟩, { ldb := ldb2, rdb := res.2 })
                | (.ok _, ldb2) => (⟨1, 0, 0, []⟩, { ldb := ldb2, rdb := res.2 })
          else (⟨0, 1, 0, ["update failed"]⟩, { st with rdb := res.2 })
      | _ => (⟨0, 1, 0, ["not a dict"]⟩, st)

/-- `_batch_update` with its processing trace. -/
def BatchSync.batch_update (env : Env) (tbl : String) (st : SyncState) :
    List Dict → BatchRes × SyncState × List Dict
  | [] => (BatchRes.zero, st, [])
  | op :: rest =>
    let h := BatchSync.updateOne env tbl st op
    let t := BatchSync.batch_update env tbl h.2 rest
    (BatchRes.add h.1 t.1, t.2.1, op :: t.2.2)

/-- One iteration of the `_batch_delete` loop: delete remotely, then remove
the queue entry; deletes are not conflict-checked. -/
def BatchSync.deleteOne (env : Env) (tbl : String) (st : SyncState) (op : Dict) :
    BatchRes × SyncState :=
  match dget op "record_id" with
  | none => (⟨0, 1, 0, ["KeyError: record_id"]⟩, st)
  | some ridv =>
    let rdb1 := Remote.deleteEq st.rdb tbl "id" ridv
    match dget op "id" with
    | none => (⟨0, 1, 0, ["KeyError: id"]⟩, { st with rdb := rdb1 })
    | some qidv =>
      match SyncQueue.remove_operation env st.ldb qidv with
      | (.error e, ldb1) => (⟨0, 1, 0, [e]⟩, { ldb := ldb1, rdb := rdb1 })
      | (.ok _, ldb1) => (⟨1, 0, 0, []⟩, { ldb := ldb1, rdb := rdb1 })

/-- `_batch_delete` with its processing trace. -/
def BatchSync.batch_delete (env : Env) (tbl : String) (st : SyncState) :
    List Dict → BatchRes × SyncState × List Dict
  | [] => (BatchRes.zero, st, [])
  | op :: rest =>
    let h := BatchSync.deleteOne env tbl st op
    let t := BatchSync.batch_delete env tbl h.2 rest
    (BatchRes.add h.1 t.1, t.2.1, op :: t.2.2)

/-- Does the entry's `operation` column equal the given kind? -/
def isOpKind (kind : String) (op : Dict) : Bool :=
  dget op "operation" == some (.str kind)

/-- `BatchSync.sync_table`: partition the batch into creates, updates and
deletes (a missing `operation` key raises a `KeyError` out of the list
comprehensions) and process the three groups in that order.  The last
component is the full processing trace. -/
def BatchSync.sync_table (env : Env) (tbl : String) (st : SyncState)
    (operations : List Dict) : Except String (BatchRes × SyncState × List Dict) :=
  if operations.isEmpty then .ok (BatchRes.zero, st, [])
  else if operations.all (fun op => (dget op "operation").isSome) then
    let creates := operations.filter (isOpKind "create")
    let updates := operations.filter (isOpKind "update")
    let deletes := operations.filter (isOpKind "delete")
    let b1 := BatchSync.batch_create env tbl st creates
    let b2 := BatchSync.batch_update env tbl b1.2.1 updates
    let b3 := BatchSync.batch_delete env tbl b2.2.1 deletes
    .ok (BatchRes.add (BatchRes.add b1.1 b2.1) b3.1, b3.2.1, b1.2.2 ++ b2.2.2 ++ b3.2.2)
  else .error "KeyError: operation"

/-- The result dict of `SyncManager.sync_all` (the `status` and `message`
keys are only present on some paths). -/
structure SyncAllResult where
  status : Option String
  message : Option String
  synced : Nat
  failed : Nat
  conflicts : Nat
  errors : List String
deriving Repr, DecidableEq

/-- The zero-initialised results dict of `sync_all`. -/
def SyncAllResult.start : SyncAllResult := ⟨none, none, 0, 0, 0, []⟩

/-- The early-return dict of a busy `sync_all` call. -/
def SyncAllResult.busy : SyncAllResult :=
  ⟨some "busy", some "Sync already in progress", 0, 0, 0, []⟩

/-- The manager's state: the `is_syncing` flag plus the two stores. -/
structure MgrState where
  isSyncing : Bool
  st : SyncState
deriving Repr, DecidableEq

/-- The per-table synchronizer as seen by `sync_all` (the injected
`self.batch_sync.sync_table`); an `error` models a raised exception, whose
partial state effects persist. -/
abbrev BatchFn := Val → List Dict → SyncState → (Except String BatchRes) × SyncState

/-- Group pending operations by `table_name`, preserving first-seen table
order and within-table order (Python dict insertion order). -/
def groupByTable (pending : List Dict) : List (Val × List Dict) :=
  pending.foldl (fun gs op =>
    let k := (dget op "table_name").getD .null
    if gs.any (fun g => g.1 == k) then
      gs.map (fun g => if g.1 == k then (g.1, g.2 ++ [op]) else g)
    else gs ++ [(k, [op])]) []

/-- `SyncManager.sync_all`: guarded by `is_syncing`; otherwise gathers
pending operations, processes them table by table (each table's exception
caught and counted), and clears the flag on every path (`finally`). -/
def SyncManager.sync_all (env : Env) (batchFn : BatchFn) (m : MgrState)
    (force : Bool) : SyncAllResult × MgrState :=
  if m.isSyncing && !force then (SyncAllResult.busy, m)
  else
    match SyncQueue.get_pending_operations env m.st.ldb none none with
    | .error e =>
      ({ SyncAllResult.start with status := some "error", errors := [e] },
       { isSyncing := false, st := m.st })
    | .ok pending =>
      if pending.isEmpty then
        (SyncAllResult.start, { isSyncing := false, st := m.st })
      else
        let step := fun (acc : SyncAllResult × SyncState) (g : Val × List Dict) =>
          match batchFn g.1 g.2 acc.2 with
          | (.ok br, st1) =>
            ({ acc.1 with synced := acc.1.synced + br.synced,
                          failed := acc.1.failed + br.failed,
                          conflicts := acc.1.conflicts + br.conflicts,
                          errors := acc.1.errors ++ br.errors }, st1)
          | (.error e, st1) =>
            ({ acc.1 with failed := acc.1.failed + g.2.length,
                          errors := acc.1.errors ++ [e] }, st1)
        let agg := (groupByTable pending).foldl step (SyncAllResult.start, m.st)
        ({ agg.1 with status := some "completed" }, { isSyncing := false, st := agg.2 })

theorem mem_dkeys_dset_self (d : Dict) (k : String) (v : Val) : k ∈ dkeys (dset d k v) := by
  by_cases h : d.any (fun p => p.1 == k) = true
  · simp only [dset, h, if_true, dkeys, List.map_map]
    rcases List.any_eq_true.mp h with ⟨p, hp, hpk⟩
    refine List.mem_map.mpr ⟨p, hp, ?_⟩
    simp [Function.comp, hpk]
  · simp only [Bool.not_eq_true] at h
    simp [dset, h, dkeys]

theorem mem_dkeys_dset_of_mem {d : Dict} {k0 : String} (h : k0 ∈ dkeys d)
    (k : String) (v : Val) : k0 ∈ dkeys (dset d k v) := by
  by_cases ha : d.any (fun p => p.1 == k) = true
  · simp only [dset, ha, if_true, dkeys, List.map_map] at *
    rcases List.mem_map.mp h with ⟨p, hp, hpk⟩
    refine List.mem_map.mpr ⟨p, hp, ?_⟩
    by_cases hk : (p.1 == k) = true
    · simp only [Function.comp, hk, if_true]
      simpa [(beq_iff_eq.mp hk)] using hpk
    · have hne : k0 ≠ k := fun he => hk (by simp [hpk, he])
      simp [Function.comp, hk, hpk, hne]
  · simp only [Bool.not_eq_true] at ha
    simp only [dset, ha, Bool.false_eq_true, if_false, dkeys, List.map_append]
    exact List.mem_append.mpr (Or.inl h)

theorem all_contains_eq_false {l cols : List String} {k : String} (hk : k ∈ l)
    (hc : cols.contains k = false) : (l.all (fun x => cols.contains x)) = false := by
  apply Bool.eq_false_iff.mpr
  intro hall
  have := List.all_eq_true.mp hall k hk
  rw [hc] at this
  exact Bool.false_ne_true this

/-- Any `LocalCache.insert` into `sync_queue` raises: the insert
unconditionally adds an `updated_at` key, and the `sync_queue` table has no
`updated_at` column.  The transaction rolls back, so the database is
unchanged. -/
theorem insert_sync_queue_err (env : Env) (db : DB) (data : Dict) (mp : Bool) :
    LocalCache.insert env db "sync_queue" data mp = (.error "no such column", db) := by
  unfold LocalCache.insert
  have hcols : schemaColumns "sync_queue" =
      some ["id", "table_name", "record_id", "operation", "local_data",
            "remote_data", "status", "created_at", "synced_at"] := by decide
  rw [hcols]
  have hupd : "updated_at" ∈ dkeys (dset
      (dset (dset data "id" ((dget data "id").getD (.str env.genId)))
        "created_at" ((dget (dset data "id" ((dget data "id").getD (.str env.genId)))
          "created_at").getD (.str env.now)))
      "updated_at" ((dget (dset (dset data "id" ((dget data "id").getD (.str env.genId)))
        "created_at" ((dget (dset data "id" ((dget data "id").getD (.str env.genId)))
          "created_at").getD (.str env.now))) "updated_at").getD (.str env.now))) :=
    mem_dkeys_dset_self _ _ _
  cases mp with
  | false =>
    simp only [Bool.false_eq_true, if_false]
    rw [all_contains_eq_false hupd (by decide)]
    simp
  | true =>
    simp only [if_true]
    rw [all_contains_eq_false
      (mem_dkeys_dset_of_mem
        (mem_dkeys_dset_of_mem (mem_dkeys_dset_of_mem hupd _ _) _ _) _ _) (by decide)]
    simp

/-- `_add_to_sync_queue` therefore always raises, leaving the cache
unchanged. -/
theorem addToSyncQueue_err (env : Env) (db : DB) (tbl : String) (ridv : Val)
    (opName : String) (localD remoteD : Option Dict) :
    LocalCache.addToSyncQueue env db tbl ridv opName localD remoteD =
      (.error "no such column", db) := by
  simp only [LocalCache.addToSyncQueue, insert_sync_queue_err]

/-- A query on `sync_queue` filtered by `id` always succeeds. -/
theorem query_sync_queue_id_ok (db : DB) (idv : Val) :
    ∃ rows, LocalCache.query db "sync_queue" [("id", idv)] none = .ok rows := by
  unfold LocalCache.query
  simp [schemaColumns]

/-- A point lookup on `sync_queue` always succeeds. -/
theorem get_sync_queue_ok (db : DB) (idv : Val) :
    ∃ x, LocalCache.get db "sync_queue" idv = .ok x := by
  unfold LocalCache.get
  obtain ⟨rows, hr⟩ := query_sync_queue_id_ok db idv
  rw [hr]
  exact ⟨_, rfl⟩

/-- Any `LocalCache.update` on `sync_queue` raises: the update
unconditionally adds an `updated_at` key to its SET clause, and the
`sync_queue` table has no `updated_at` column. -/
theorem update_sync_queue_err (env : Env) (db : DB) (idv : Val) (data : Dict)
    (mp : Bool) :
    LocalCache.update env db "sync_queue" idv data mp = (.error "no such column", db) := by
  unfold LocalCache.update
  obtain ⟨x, hx⟩ := get_sync_queue_ok db idv
  have hcols : schemaColumns "sync_queue" =
      some ["id", "table_name", "record_id", "operation", "local_data",
            "remote_data", "status", "created_at", "synced_at"] := by decide
  rw [hx, hcols]
  have hupd1 : "updated_at" ∈ dkeys (dset data "updated_at" (.str env.now)) :=
    mem_dkeys_dset_self _ _ _
  cases mp with
  | false =>
    dsimp only
    rw [all_contains_eq_false hupd1 (by decide)]
    simp
  | true =>
    cases x with
    | none =>
      dsimp only
      rw [all_contains_eq_false hupd1 (by decide)]
      simp
    | some o =>
      dsimp only
      rw [all_contains_eq_false
        (mem_dkeys_dset_of_mem (mem_dkeys_dset_of_mem (mem_dkeys_dset_of_mem hupd1 _ _) _ _) _ _)
        (by decide)]
      simp

/-- `LocalCache.insert` into `conflict_audit` always raises `no such table`:
`_initialize_database` never creates a `conflict_audit` table. -/
theorem insert_conflict_audit_err (env : Env) (db : DB) (data : Dict) (mp : Bool) :
    LocalCache.insert env db "conflict_audit" data mp =
      (.error "no such table: conflict_audit", db) := by
  unfold LocalCache.insert
  have h : schemaColumns "conflict_audit" = none := by decide
  rw [h]
  dsimp only
  rfl

/-- Claim C10: `LocalCache.delete(table, record_id, mark_pending=True)` is
claimed to append a pending `delete` queue entry before removing the row,
with the entry persisting even when no row matches and the call returns
`False`.  In fact the enqueue itself always raises an `OperationalError`
(`LocalCache.insert` stamps an `updated_at` key, which is not a column of
`sync_queue`), so the call raises for every input, no queue entry is ever
created, and the row is not deleted: the whole call is a no-op that
propagates an exception instead of returning `False`. -/
theorem C10_delete_mark_pending_always_raises (env : Env) (db : DB) (tbl : String)
    (ridv : Val) :
    LocalCache.delete env db tbl ridv true = (.error "no such column", db) := by
  unfold LocalCache.delete
  simp only [if_true, addToSyncQueue_err]

/-- Claim C6: `ConflictAudit.log_conflict` is claimed to fall back to
durably storing the audit entry in the local cache when the remote sink is
unavailable, still returning the audit id.  In fact the fallback insert
targets a `conflict_audit` table that `_initialize_database` never creates,
so the fallback raises `no such table: conflict_audit` out of the `except`
block: the entry is lost, no audit id is returned, and no state changes. -/
theorem C6_log_conflict_fallback_raises (env : Env) (st : SyncState)
    (tblName ridS ctype : String) (localD remoteD : Dict) (resolution : String)
    (resolvedBy : Option String) :
    ConflictAudit.log_conflict env false st tblName ridS ctype localD remoteD
        resolution resolvedBy = (.error "no such table: conflict_audit", st) ∧
      schemaColumns "conflict_audit" = none := by
  constructor
  · unfold ConflictAudit.log_conflict
    simp only [Bool.false_eq_true, if_false, insert_conflict_audit_err]
  · decide

/-- The claim-side condition for C1, following the spec's words: the
detector reports a conflict iff the remote record exists, both `updated_at`
timestamps are present (non-empty strings) and parsable, and the remote
timestamp is strictly greater than the local one. -/
def specConflictReported (env : Env) (rdb : RemoteDB) (tbl : String) (ridv : Val)
    (ld : Dict) : Bool :=
  match Remote.selectEq rdb tbl "id" ridv with
  | [] => false
  | rd :: _ =>
    match dget ld "updated_at", dget rd "updated_at" with
    | some (.str ls), some (.str rs) =>
      ls != "" && rs != "" &&
        (match env.parseTs ls, env.parseTs rs with
         | some lt, some rt => decide (lt < rt)
         | _, _ => false)
    | _, _ => false

/-- Claim C1: `ConflictHandler.check_conflict` reports a conflict iff the
remote record exists, both `updated_at` timestamps are present and
parsable, and the remote timestamp is strictly greater than the local one;
it reports no conflict when the remote record is absent, when
`remote.updated_at <= local.updated_at`, or when either timestamp is
missing or unparsable. -/
theorem C1_check_conflict_iff (env : Env) (rdb : RemoteDB) (tbl : String)
    (ridv : Val) (ld : Dict) :
    (ConflictHandler.check_conflict env rdb tbl ridv ld).isSome =
      specConflictReported env rdb tbl ridv ld := by
  unfold ConflictHandler.check_conflict specConflictReported
  cases hsel : Remote.selectEq rdb tbl "id" ridv with
  | nil => rfl
  | cons rd rest =>
    dsimp only
    cases hlu : dget ld "updated_at" with
    | none => simp [truthyO]
    | some lv =>
      cases hru : dget rd "updated_at" with
      | none => cases lv <;> simp [truthyO, Val.truthy]
      | some rv =>
        cases lv <;> cases rv <;> simp [truthyO, Val.truthy] <;>
          first
          | rfl
          | (rename_i ls rs
             by_cases hls : ls = "" <;> by_cases hrs : rs = "" <;>
               simp [hls, hrs] <;>
               cases hpl : env.parseTs ls <;>
                 cases hpr : env.parseTs rs <;>
                 simp [hpl, hpr] <;>
                 (try (rename_i lt rt; by_cases hlt : lt < rt <;> simp [hlt] <;>
                   try exact ⟨hls, hrs⟩)))

/-- Claim C3: for every conflict descriptor whose `local_updated` and
`remote_updated` timestamps are parsable, `auto_resolve_conflict` delegates
to `resolve_conflict` with resolution `"remote"` when the remote timestamp
is strictly greater than the local one, and with `"local"` otherwise
(including equality), passing the descriptor's `queue_id` (default `""`). -/
theorem C3_auto_resolve_delegates_lww (env : Env) (st : SyncState) (conflict : Dict)
    (ls rs : String) (lt rt : Int)
    (hlu : dget conflict "local_updated" = some (.str ls))
    (hru : dget conflict "remote_updated" = some (.str rs))
    (hpl : env.parseTs ls = some lt)
    (hpr : env.parseTs rs = some rt) :
    ConflictHandler.auto_resolve_conflict env st conflict =
      ConflictHandler.resolve_conflict env st
        ((dget conflict "queue_id").getD (.str ""))
        (if lt < rt then "remote" else "local") none := by
  unfold ConflictHandler.auto_resolve_conflict
  dsimp only
  rw [hlu, hru]
  dsimp only
  rw [hpl, hpr]
  dsimp only
  by_cases hlt : lt < rt <;> simp [hlt]

/-- A concrete environment for witnesses: timestamps parse via `toInt?`. -/
def envX : Env :=
  { dumps := fun _ => "", loads := fun _ => none,
    parseTs := fun s => if s = "1" then some 1 else if s = "2" then some 2 else none,
    genId := "uuid-1", now := "2024-06-01T00:00:00" }

/-- A concrete conflict descriptor with parsable timestamps, remote newer. -/
def conflictW : Dict :=
  [("local_updated", .str "1"), ("remote_updated", .str "2"), ("queue_id", .str "q1")]

/-- Witness for C3: on a concrete descriptor with remote strictly newer,
the delegation picks `"remote"`. -/
theorem C3_witness :
    ConflictHandler.auto_resolve_conflict envX ⟨[], []⟩ conflictW =
      ConflictHandler.resolve_conflict envX ⟨[], []⟩ (.str "q1") "remote" none := by
  have h := C3_auto_resolve_delegates_lww envX ⟨[], []⟩ conflictW "1" "2" 1 2
    (by decide) (by decide) (by decide) (by decide)
  simpa using h

/-- Claim C4: a `resolve_conflict` call whose resolution is none of
`"local"`, `"remote"`, `"merge"`, or is `"merge"` without (truthy) merged
data, returns `False` and leaves both stores untouched, so the referenced
queue entry's status stays `conflict`. -/
theorem C4_resolve_invalid_resolution_noop (env : Env) (st : SyncState) (qid : Val)
    (res : String) (data : Option Dict)
    (h : (res ≠ "local" ∧ res ≠ "remote" ∧ res ≠ "merge") ∨
         (res = "merge" ∧ dataTruthy data = false)) :
    ConflictHandler.resolve_conflict env st qid res data = (false, st) := by
  unfold ConflictHandler.resolve_conflict
  cases hg : LocalCache.get st.ldb "sync_queue" qid with
  | error e => rfl
  | ok o =>
    cases o with
    | none => rfl
    | some qi =>
      dsimp only
      rcases h with ⟨h1, h2, h3⟩ | ⟨h1, h2⟩
      · simp [h1, h2, h3]
      · subst h1
        simp [h2]

/-- A conflicted concrete queue entry. -/
def qrowW : Dict :=
  [("id", .str "q1"), ("table_name", .str "clients"), ("record_id", .str "c1"),
   ("operation", .str "update"), ("local_data", .null), ("remote_data", .null),
   ("status", .str "conflict"), ("created_at", .str "T0"), ("synced_at", .null)]

/-- A concrete state holding one conflicted queue entry. -/
def stW4 : SyncState := ⟨[⟨"sync_queue", qrowW⟩], []⟩

/-- Witness for C4: an unknown resolution value on a concrete conflicted
entry returns `False` with the state unchanged. -/
theorem C4_witness :
    ConflictHandler.resolve_conflict envX stW4 (.str "q1") "banana" none = (false, stW4) :=
  C4_resolve_invalid_resolution_noop envX stW4 (.str "q1") "banana" none
    (Or.inl ⟨by decide, by decide, by decide⟩)

/-- Is this row an entry of the `conflict_audit` table? -/
def isAuditRow (r : Row) : Bool := r.table == "conflict_audit"

/-- Number of conflict-audit rows in a local database. -/
def auditL (db : DB) : Nat := db.countP isAuditRow

/-- Total number of Conflict Audit Entries across both stores. -/
def auditCount (st : SyncState) : Nat := auditL st.ldb + auditL st.rdb

theorem auditL_map_of_table {db : DB} {f : Row → Row}
    (hf : ∀ r, (f r).table = r.table) : auditL (db.map f) = auditL db := by
  induction db with
  | nil => rfl
  | cons r t ih =>
    simp only [auditL, List.map_cons, List.countP_cons] at *
    rw [ih]
    have : isAuditRow (f r) = isAuditRow r := by simp [isAuditRow, hf r]
    rw [this]

theorem auditL_filter_of_keep {db : DB} {pred : Row → Bool}
    (hp : ∀ r, isAuditRow r = true → pred r = true) :
    auditL (db.filter pred) = auditL db := by
  induction db with
  | nil => rfl
  | cons r t ih =>
    simp only [auditL] at ih ⊢
    by_cases ha : isAuditRow r = true
    · simp [List.filter_cons, hp r ha, List.countP_cons, ha, ih]
    · simp only [Bool.not_eq_true] at ha
      cases hpr : pred r <;> simp [List.filter_cons, hpr, List.countP_cons, ha, ih]

theorem schemaColumns_ne_audit {tbl : String} {cols : List String}
    (h : schemaColumns tbl = some cols) : tbl ≠ "conflict_audit" := by
  intro he
  rw [he] at h
  simp [schemaColumns] at h

theorem auditL_insertRow (db : DB) (tbl : String) (f : Dict)
    (hne : tbl ≠ "conflict_audit") : auditL (insertRow db tbl f) = auditL db := by
  unfold insertRow
  simp only [auditL, List.countP_append]
  have h1 : auditL (db.filter fun r => !rowHasId tbl ((dget f "id").getD Val.null) r) =
      auditL db :=
    auditL_filter_of_keep (fun r ha => by
      simp only [isAuditRow, beq_iff_eq] at ha
      simp [rowHasId, ha, Ne.symm hne])
  simp only [auditL] at h1
  rw [h1]
  simp [isAuditRow, hne]

/-- `LocalCache.insert` never changes the number of local audit rows: an
insert into `conflict_audit` errors (no such table), and an insert into any
existing table touches only that table's rows. -/
theorem auditL_insert (env : Env) (db : DB) (tbl : String) (data : Dict) (mp : Bool) :
    auditL ((LocalCache.insert env db tbl data mp).2) = auditL db := by
  unfold LocalCache.insert
  cases hs : schemaColumns tbl with
  | none => rfl
  | some cols =>
    dsimp only
    have hne := schemaColumns_ne_audit hs
    repeat' split
    all_goals first | rfl | exact auditL_insertRow db tbl _ hne

/-- `LocalCache.update` never changes the number of local audit rows. -/
theorem auditL_update (env : Env) (db : DB) (tbl : String) (idv : Val) (data : Dict)
    (mp : Bool) : auditL ((LocalCache.update env db tbl idv data mp).2) = auditL db := by
  unfold LocalCache.update
  cases hg : LocalCache.get db tbl idv with
  | error e => rfl
  | ok original =>
    dsimp only
    cases hs : schemaColumns tbl with
    | none => rfl
    | some cols =>
      dsimp only
      split
      · exact auditL_map_of_table (fun r => by split <;> rfl)
      · rfl

/-- `LocalCache.mark_synced` never changes the number of local audit rows. -/
theorem auditL_markSynced (env : Env) (db : DB) (tbl : String) (ridv : Val) :
    auditL ((LocalCache.mark_synced env db tbl ridv).2) = auditL db := by
  unfold LocalCache.mark_synced
  dsimp only
  cases hu : LocalCache.update env db tbl ridv
      [("pending_sync", .int 0), ("sync_status", .str "synced"),
       ("last_synced_at", .str env.now)] false with
  | mk fst snd =>
    have h1 := auditL_update env db tbl ridv
      [("pending_sync", .int 0), ("sync_status", .str "synced"),
       ("last_synced_at", .str env.now)] false
    rw [hu] at h1
    dsimp only at h1
    cases fst with
    | error e => exact h1
    | ok b =>
      dsimp only
      rw [auditL_map_of_table (fun r => by split <;> rfl)]
      exact h1

/-- `SyncQueue.mark_synced` never changes the number of local audit rows. -/
theorem auditL_sqMarkSynced (env : Env) (db : DB) (qid : Val) (sAt : Option String) :
    auditL ((SyncQueue.mark_synced env db qid sAt).2) = auditL db := by
  unfold SyncQueue.mark_synced
  dsimp only
  rw [update_sync_queue_err]

/-- `Remote.updateEq` never changes the number of remote audit rows. -/
theorem auditL_remoteUpdate (rdb : RemoteDB) (tbl : String) (data : Dict)
    (key : String) (v : Val) :
    auditL ((Remote.updateEq rdb tbl data key v).2) = auditL rdb := by
  unfold Remote.updateEq
  exact auditL_map_of_table (fun r => by split <;> rfl)

/-- Split a pair-returning cache operation into its components. -/
theorem pair_eta {α β : Type} (x : α × β) : x = (x.1, x.2) := rfl

/-- A concrete state whose only content is one conflicted queue entry for
`clients.c1`, with an empty remote store. -/
def stW2 : SyncState := ⟨[⟨"sync_queue", qrowW⟩], []⟩

/-- Claim C2: every successful resolution is claimed to produce exactly one
new Conflict Audit Entry.  In fact `resolve_conflict` never calls
`ConflictAudit.log_conflict` at all: the first conjunct proves that no call
(any resolution, any state) changes the number of audit entries in either
store; the second exhibits a successful resolution (`"remote"` with the
remote record absent) that returns `True` while leaving the state — and
hence the audit log — completely unchanged. -/
theorem C2_resolution_writes_no_audit_entry :
    (∀ (env : Env) (st : SyncState) (qid : Val) (res : String) (data : Option Dict),
      auditCount (ConflictHandler.resolve_conflict env st qid res data).2 = auditCount st) ∧
    ConflictHandler.resolve_conflict envX stW2 (.str "q1") "remote" none = (true, stW2) := by
  constructor
  · intro env st qid res data
    unfold ConflictHandler.resolve_conflict
    cases hg : LocalCache.get st.ldb "sync_queue" qid with
    | error e => rfl
    | ok o =>
      cases o with
      | none => rfl
      | some qi =>
        dsimp only
        by_cases hres1 : (res == "local") = true
        · simp only [hres1, if_true]
          have chain : ∀ d : Dict,
              auditCount ((match (dget qi "table_name").getD Val.null with
                | Val.str tbl =>
                  match LocalCache.mark_synced env st.ldb tbl
                      ((dget qi "record_id").getD Val.null) with
                  | (Except.error _, ldb1) =>
                    (false, (⟨ldb1, (Remote.updateEq st.rdb tbl (stripSyncFields d) "id"
                      ((dget qi "record_id").getD Val.null)).2⟩ : SyncState))
                  | (Except.ok _, ldb1) =>
                    match SyncQueue.mark_synced env ldb1 qid none with
                    | (Except.error _, ldb2) =>
                      (false, (⟨ldb2, (Remote.updateEq st.rdb tbl (stripSyncFields d) "id"
                        ((dget qi "record_id").getD Val.null)).2⟩ : SyncState))
                    | (Except.ok _, ldb2) =>
                      (true, (⟨ldb2, (Remote.updateEq st.rdb tbl (stripSyncFields d) "id"
                        ((dget qi "record_id").getD Val.null)).2⟩ : SyncState))
                | _ => (false, st)).2) = auditCount st := by
            intro d
            cases htv : (dget qi "table_name").getD Val.null <;> try rfl
            rename_i tbl
            dsimp only
            rw [pair_eta (LocalCache.mark_synced env st.ldb tbl
              ((dget qi "record_id").getD Val.null))]
            have hA := auditL_markSynced env st.ldb tbl ((dget qi "record_id").getD Val.null)
            cases hf1 : (LocalCache.mark_synced env st.ldb tbl
                ((dget qi "record_id").getD Val.null)).1 with
            | error e =>
              dsimp only
              simp only [auditCount]
              rw [hA, auditL_remoteUpdate]
            | ok u =>
              dsimp only
              rw [pair_eta (SyncQueue.mark_synced env
                (LocalCache.mark_synced env st.ldb tbl
                  ((dget qi "record_id").getD Val.null)).2 qid none)]
              have hB := auditL_sqMarkSynced env
                (LocalCache.mark_synced env st.ldb tbl
                  ((dget qi "record_id").getD Val.null)).2 qid none
              cases hf2 : (SyncQueue.mark_synced env
                  (LocalCache.mark_synced env st.ldb tbl
                    ((dget qi "record_id").getD Val.null)).2 qid none).1 <;>
                (dsimp only; simp only [auditCount]; rw [hB, hA, auditL_remoteUpdate])
          cases hld : (dget qi "local_data").getD Val.null with
          | str s =>
            dsimp only
            cases hls : env.loads s with
            | none => rfl
            | some v =>
              cases v <;> try rfl
              rename_i d
              exact chain d
          | dict d =>
            dsimp only
            exact chain d
          | null => rfl
          | bool b => rfl
          | int n => rfl
        · simp only [hres1]
          by_cases hres2 : (res == "remote") = true
          · simp only [hres2, if_true, Bool.false_eq_true, if_false]
            cases htv : (dget qi "table_name").getD Val.null <;> try rfl
            rename_i tbl
            dsimp only
            cases hsel : Remote.selectEq st.rdb tbl "id"
                ((dget qi "record_id").getD Val.null) with
            | nil => rfl
            | cons rd rest =>
              dsimp only
              rw [pair_eta (LocalCache.insert env st.ldb tbl rd false)]
              have hA := auditL_insert env st.ldb tbl rd false
              cases hf1 : (LocalCache.insert env st.ldb tbl rd false).1 with
              | error e =>
                dsimp only
                simp only [auditCount]
                rw [hA]
              | ok u =>
                dsimp only
                rw [pair_eta (SyncQueue.mark_synced env
                  (LocalCache.insert env st.ldb tbl rd false).2 qid none)]
                have hB := auditL_sqMarkSynced env
                  (LocalCache.insert env st.ldb tbl rd false).2 qid none
                cases hf2 : (SyncQueue.mark_synced env
                    (LocalCache.insert env st.ldb tbl rd false).2 qid none).1 <;>
                  (dsimp only; simp only [auditCount]; rw [hB, hA])
          · simp only [hres2]
            by_cases hres3 : (res == "merge" && dataTruthy data) = true
            · simp only [hres3, if_true, Bool.false_eq_true, if_false]
              cases data with
              | none => rfl
              | some d =>
                cases htv : (dget qi "table_name").getD Val.null <;> try rfl
                rename_i tbl
                dsimp only
                rw [pair_eta (LocalCache.insert env st.ldb tbl (stripSyncFields d) false)]
                have hA := auditL_insert env st.ldb tbl (stripSyncFields d) false
                cases hf1 : (LocalCache.insert env st.ldb tbl (stripSyncFields d) false).1 with
                | error e =>
                  dsimp only
                  simp only [auditCount]
                  rw [hA, auditL_remoteUpdate]
                | ok u =>
                  dsimp only
                  rw [pair_eta (SyncQueue.mark_synced env
                    (LocalCache.insert env st.ldb tbl (stripSyncFields d) false).2 qid none)]
                  have hB := auditL_sqMarkSynced env
                    (LocalCache.insert env st.ldb tbl (stripSyncFields d) false).2 qid none
                  cases hf2 : (SyncQueue.mark_synced env
                      (LocalCache.insert env st.ldb tbl (stripSyncFields d) false).2
                      qid none).1 <;>
                    (dsimp only; simp only [auditCount]; rw [hB, hA, auditL_remoteUpdate])
            · simp only [hres3, Bool.false_eq_true, if_false]
  · decide

/-- Claim C5: a `sync_all` call that arrives while `is_syncing` is set and
is not forced returns the `busy` result without reading or mutating
anything (the manager state, including the queue, is returned untouched);
and every call that does run ends with `is_syncing` cleared, whatever the
injected per-table synchronizer does — including raising (the
`Except.error` case of `batchFn`) — and on the empty-queue early return. -/
theorem C5_sync_all_busy_guard_and_flag_cleared (env : Env) (batchFn : BatchFn)
    (m : MgrState) (force : Bool) :
    ((m.isSyncing && !force) = true →
      SyncManager.sync_all env batchFn m force = (SyncAllResult.busy, m)) ∧
    ((m.isSyncing && !force) = false →
      (SyncManager.sync_all env batchFn m force).2.isSyncing = false) := by
  constructor
  · intro h
    unfold SyncManager.sync_all
    rw [h]
    rfl
  · intro h
    unfold SyncManager.sync_all
    rw [h]
    dsimp only
    cases hp : SyncQueue.get_pending_operations env m.st.ldb none none with
    | error e => rfl
    | ok pending =>
      dsimp only
      by_cases he : pending.isEmpty = true
      · simp [he]
      · simp only [he, Bool.false_eq_true, if_false]

/-- A per-table synchronizer that succeeds and does nothing. -/
def batchFnW : BatchFn := fun _ _ st => (.ok BatchRes.zero, st)

/-- Witness for C5: a concrete busy call returns `busy` with the manager
untouched; a concrete non-busy call ends with the flag cleared. -/
theorem C5_witness :
    SyncManager.sync_all envX batchFnW ⟨true, ⟨[], []⟩⟩ false =
      (SyncAllResult.busy, ⟨true, ⟨[], []⟩⟩) ∧
    (SyncManager.sync_all envX batchFnW ⟨false, ⟨[], []⟩⟩ false).2.isSyncing = false :=
  ⟨(C5_sync_all_busy_guard_and_flag_cleared envX batchFnW ⟨true, ⟨[], []⟩⟩ false).1 (by decide),
   (C5_sync_all_busy_guard_and_flag_cleared envX batchFnW ⟨false, ⟨[], []⟩⟩ false).2 (by decide)⟩

theorem batch_create_trace (env : Env) (tbl : String) :
    ∀ (l : List Dict) (st : SyncState), (BatchSync.batch_create env tbl st l).2.2 = l := by
  intro l
  induction l with
  | nil => intro st; rfl
  | cons op rest ih =>
    intro st
    unfold BatchSync.batch_create
    dsimp only
    rw [ih]

theorem batch_update_trace (env : Env) (tbl : String) :
    ∀ (l : List Dict) (st : SyncState), (BatchSync.batch_update env tbl st l).2.2 = l := by
  intro l
  induction l with
  | nil => intro st; rfl
  | cons op rest ih =>
    intro st
    unfold BatchSync.batch_update
    dsimp only
    rw [ih]

theorem batch_delete_trace (env : Env) (tbl : String) :
    ∀ (l : List Dict) (st : SyncState), (BatchSync.batch_delete env tbl st l).2.2 = l := by
  intro l
  induction l with
  | nil => intro st; rfl
  | cons op rest ih =>
    intro st
    unfold BatchSync.batch_delete
    dsimp only
    rw [ih]

/-- Claim C7: for every batch passed to `BatchSync.sync_table`, the
processing trace is exactly the create entries, then the update entries,
then the delete entries, each group filtered from the input list — so all
creates are processed before any update, all updates before any delete,
and entries within each group keep their queue insertion order (filtering
preserves relative order). -/
theorem C7_sync_table_processing_order (env : Env) (tbl : String) (st : SyncState)
    (ops : List Dict) :
    (BatchSync.sync_table env tbl st ops).map (fun x => x.2.2) =
      (if ops.all (fun op => (dget op "operation").isSome) then
        .ok (ops.filter (isOpKind "create") ++ ops.filter (isOpKind "update") ++
             ops.filter (isOpKind "delete"))
      else .error "KeyError: operation") := by
  unfold BatchSync.sync_table
  by_cases he : ops.isEmpty = true
  · have hnil : ops = [] := by
      cases ops with
      | nil => rfl
      | cons a t => simp [List.isEmpty] at he
    subst hnil
    simp [Except.map]
  · simp only [he, Bool.false_eq_true, if_false]
    by_cases hall : (ops.all fun op => (dget op "operation").isSome) = true
    · simp only [hall, if_true]
      rw [Except.map]
      rw [batch_create_trace, batch_update_trace, batch_delete_trace]
    · simp only [hall, Bool.false_eq_true, if_false]
      rfl

theorem find?_map_set_self (k : String) (v : Val) :
    ∀ d : Dict, d.any (fun p => p.1 == k) = true →
      (d.map (fun p => if p.1 == k then (k, v) else p)).find? (fun p => p.1 == k) =
        some (k, v) := by
  intro d
  induction d with
  | nil => intro h; simp at h
  | cons p t ih =>
    intro ha
    by_cases hp : (p.1 == k) = true
    · simp only [List.map_cons, hp, if_true]
      rw [List.find?_cons_of_pos _ (by simp)]
    · have hp1 : (p.1 == k) = false := Bool.eq_false_iff.mpr hp
      simp only [List.map_cons, hp1, Bool.false_eq_true, if_false]
      rw [List.find?_cons_of_neg _ (by simp [hp1])]
      apply ih
      rcases List.any_eq_true.mp ha with ⟨q, hq, hqk⟩
      rcases List.mem_cons.mp hq with rfl | hq2
      · rw [hp1] at hqk; cases hqk
      · exact List.any_eq_true.mpr ⟨q, hq2, hqk⟩

theorem find?_map_set_ne (k k0 : String) (v : Val) (hne : k0 ≠ k) :
    ∀ d : Dict,
      (d.map (fun p => if p.1 == k then (k, v) else p)).find? (fun p => p.1 == k0) =
        d.find? (fun p => p.1 == k0) := by
  intro d
  have hkk0 : ((k : String) == k0) = false := beq_eq_false_iff_ne.mpr (Ne.symm hne)
  induction d with
  | nil => rfl
  | cons p t ih =>
    by_cases hp : (p.1 == k) = true
    · have hpk : p.1 = k := beq_iff_eq.mp hp
      simp only [List.map_cons, hp, if_true]
      rw [List.find?_cons_of_neg _ (by simp [hkk0]),
          List.find?_cons_of_neg _ (by simp [hpk, hkk0])]
      exact ih
    · have hp1 : (p.1 == k) = false := Bool.eq_false_iff.mpr hp
      simp only [List.map_cons, hp1, Bool.false_eq_true, if_false]
      by_cases h0 : (p.1 == k0) = true
      · rw [List.find?_cons_of_pos _ (by simpa using h0),
            List.find?_cons_of_pos _ (by simpa using h0)]
      · have h01 : (p.1 == k0) = false := Bool.eq_false_iff.mpr h0
        rw [List.find?_cons_of_neg _ (by simp [h01]),
            List.find?_cons_of_neg _ (by simp [h01])]
        exact ih

theorem find?_none_of_any_false (k0 : String) :
    ∀ d : Dict, d.any (fun p => p.1 == k0) = false →
      d.find? (fun p => p.1 == k0) = none := by
  intro d
  induction d with
  | nil => intro _; rfl
  | cons p t ih =>
    intro ha
    simp only [List.any_cons, Bool.or_eq_false_iff] at ha
    rw [List.find?_cons_of_neg _ (by simp [ha.1])]
    exact ih ha.2

theorem find?_append_of_none {l1 l2 : Dict} {p : String × Val → Bool}
    (h : l1.find? p = none) : (l1 ++ l2).find? p = l2.find? p := by
  induction l1 with
  | nil => rfl
  | cons a t ih =>
    by_cases hpa : p a = true
    · rw [List.find?_cons_of_pos _ hpa] at h; cases h
    · have hpa1 : p a = false := Bool.eq_false_iff.mpr hpa
      rw [List.find?_cons_of_neg _ (by simp [hpa1])] at h
      simp only [List.cons_append]
      rw [List.find?_cons_of_neg _ (by simp [hpa1])]
      exact ih h

theorem find?_append_of_some {l1 l2 : Dict} {p : String × Val → Bool} {q : String × Val}
    (h : l1.find? p = some q) : (l1 ++ l2).find? p = some q := by
  induction l1 with
  | nil => cases h
  | cons a t ih =>
    by_cases hpa : p a = true
    · rw [List.find?_cons_of_pos _ hpa] at h
      simp only [List.cons_append]
      rw [List.find?_cons_of_pos _ hpa]
      exact h
    · have hpa1 : p a = false := Bool.eq_false_iff.mpr hpa
      rw [List.find?_cons_of_neg _ (by simp [hpa1])] at h
      simp only [List.cons_append]
      rw [List.find?_cons_of_neg _ (by simp [hpa1])]
      exact ih h

theorem dget_dset_self (d : Dict) (k : String) (v : Val) : dget (dset d k v) k = some v := by
  unfold dset dget
  by_cases ha : d.any (fun p => p.1 == k) = true
  · simp only [ha, if_true]
    rw [find?_map_set_self k v d ha]
  · have ha1 : d.any (fun p => p.1 == k) = false := Bool.eq_false_iff.mpr ha
    simp only [ha1, Bool.false_eq_true, if_false]
    rw [find?_append_of_none (find?_none_of_any_false k d ha1)]
    rw [List.find?_cons_of_pos _ (by simp)]

theorem dget_dset_ne (d : Dict) (k k0 : String) (v : Val) (hne : k0 ≠ k) :
    dget (dset d k v) k0 = dget d k0 := by
  unfold dset dget
  by_cases ha : d.any (fun p => p.1 == k) = true
  · simp only [ha, if_true]
    rw [find?_map_set_ne k k0 v hne d]
  · have ha1 : d.any (fun p => p.1 == k) = false := Bool.eq_false_iff.mpr ha
    simp only [ha1, Bool.false_eq_true, if_false]
    have hkk0 : ((k : String) == k0) = false := beq_eq_false_iff_ne.mpr (Ne.symm hne)
    cases hf : d.find? (fun p => p.1 == k0) with
    | none =>
      rw [find?_append_of_none hf, List.find?_cons_of_neg _ (by simp [hkk0])]
      rfl
    | some q =>
      rw [find?_append_of_some hf]

/-- Merging `{status: v, synced_at: w}` into a row sets its `status`. -/
theorem dget_merge_status (f : Dict) (v w : Val) :
    dget (dmerge f [("status", v), ("synced_at", w)]) "status" = some v := by
  show dget (dset (dset f "status" v) "synced_at" w) "status" = some v
  rw [dget_dset_ne _ _ _ _ (by decide)]
  exact dget_dset_self _ _ _

/-- A pending queue entry recorded for the `users` table. -/
def qrowU : Dict :=
  [("id", .str "q9"), ("table_name", .str "users"), ("record_id", .str "u1"),
   ("operation", .str "update"), ("local_data", .null), ("remote_data", .null),
   ("status", .str "pending"), ("created_at", .str "T0"), ("synced_at", .null)]

/-- A local database holding only that queue entry. -/
def dbU : DB := [⟨"sync_queue", qrowU⟩]

/-- Counterexample to claim C9 as stated: `mark_synced("users", "u1")` on a
database holding a matching pending queue entry does NOT set that entry to
`synced` — the preliminary bookkeeping update targets columns
(`pending_sync`, ...) the `users` table does not have, so the call raises
before the raw queue update runs, and the matching entry stays `pending`. -/
theorem C9_counterexample :
    LocalCache.mark_synced envX dbU "users" (.str "u1") = (.error "no such column", dbU) ∧
    queueRowMatches "users" (.str "u1") ⟨"sync_queue", qrowU⟩ = true ∧
    dget qrowU "status" = some (.str "pending") :=
  ⟨rfl, by decide, by decide⟩

/-- After a successful `mark_synced`, every matching queue row is synced. -/
theorem mark_synced_post (env : Env) (db : DB) (tbl : String) (ridv : Val) (db2 : DB)
    (h : LocalCache.mark_synced env db tbl ridv = (.ok (), db2)) :
    ∀ r ∈ db2, queueRowMatches tbl ridv r = true →
      dget r.fields "status" = some (.str "synced") := by
  unfold LocalCache.mark_synced at h
  dsimp only at h
  rw [pair_eta (LocalCache.update env db tbl ridv
    [("pending_sync", .int 0), ("sync_status", .str "synced"),
     ("last_synced_at", .str env.now)] false)] at h
  cases hx : (LocalCache.update env db tbl ridv
      [("pending_sync", .int 0), ("sync_status", .str "synced"),
       ("last_synced_at", .str env.now)] false).1 with
  | error e =>
    rw [hx] at h
    simp at h
  | ok b =>
    rw [hx] at h
    dsimp only at h
    simp only [Prod.mk.injEq] at h
    rw [← h.2]
    intro r hr hmatch
    rcases List.mem_map.mp hr with ⟨r1, hr1, rfl⟩
    by_cases hq : queueRowMatches tbl ridv r1 = true
    · simp only [hq, if_true]
      exact dget_merge_status _ _ _
    · simp only [hq, Bool.false_eq_true, if_false] at hmatch

/-- The domain tables, whose schemas carry the sync bookkeeping columns. -/
def domainTables : List String :=
  ["clients", "doctors", "staff", "rooms", "equipment", "reservations", "payments"]

/-- Claim C9, amended: for every call on a table whose schema carries the
sync bookkeeping columns (the domain tables), `LocalCache.mark_synced`
succeeds and its raw SQL update sets `status = 'synced'` on ALL `sync_queue`
rows whose `table_name` and `record_id` match — not only the entry being
processed — so several queue entries for the same record are all marked. -/
theorem C9_amended_mark_synced_all_matching_rows (env : Env) (db : DB) (tbl : String)
    (ridv : Val) (htbl : tbl ∈ domainTables) :
    ∃ db2, LocalCache.mark_synced env db tbl ridv = (.ok (), db2) ∧
      ∀ r ∈ db2, queueRowMatches tbl ridv r = true →
        dget r.fields "status" = some (.str "synced") := by
  simp only [domainTables, List.mem_cons, List.not_mem_nil, or_false] at htbl
  rcases htbl with rfl | rfl | rfl | rfl | rfl | rfl | rfl
  all_goals exact ⟨_, rfl, mark_synced_post env db _ ridv _ rfl⟩

/-- Two pending queue entries for the same `clients` record. -/
def dbC2q : DB :=
  [⟨"sync_queue",
    [("id", .str "qa"), ("table_name", .str "clients"), ("record_id", .str "c1"),
     ("operation", .str "update"), ("local_data", .null), ("remote_data", .null),
     ("status", .str "pending"), ("created_at", .str "T0"), ("synced_at", .null)]⟩,
   ⟨"sync_queue",
    [("id", .str "qb"), ("table_name", .str "clients"), ("record_id", .str "c1"),
     ("operation", .str "update"), ("local_data", .null), ("remote_data", .null),
     ("status", .str "pending"), ("created_at", .str "T1"), ("synced_at", .null)]⟩]

/-- Witness for the amended C9: on a concrete database with two pending
queue entries for `clients.c1`, the call succeeds and every matching row is
left `synced`. -/
theorem C9_amended_witness :
    ∃ db2, LocalCache.mark_synced envX dbC2q "clients" (.str "c1") = (.ok (), db2) ∧
      ∀ r ∈ db2, queueRowMatches "clients" (.str "c1") r = true →
        dget r.fields "status" = some (.str "synced") :=
  C9_amended_mark_synced_all_matching_rows envX dbC2q "clients" (.str "c1") (by decide)

/-- Is `r` the `sync_queue` entry with primary key `qid`? -/
def queueRowWithId (qid : Val) (r : Row) : Bool :=
  r.table == "sync_queue" && dget r.fields "id" == some qid

/-- Every `sync_queue` row with id `qid` has status `synced` (vacuously true
when the entry is absent). -/
def allSyncedFor (db : DB) (qid : Val) : Bool :=
  db.all (fun r => !(queueRowWithId qid r) || dget r.fields "status" == some (.str "synced"))

/-- No `sync_queue` row with id `qid` has status `pending`. -/
def nonePendingFor (db : DB) (qid : Val) : Bool :=
  db.all (fun r => !(queueRowWithId qid r) || !(dget r.fields "status" == some (.str "pending")))

/-- One operation of `SyncQueue` or `BatchSync` (including the compound
batch passes), with the arguments it is called with. -/
inductive QStep where
  | addOperation (tbl : String) (rid : Val) (opName : String) (ld rd : Option Dict) : QStep
  | sqMarkSynced (qid : Val) (syncedAt : Option String) : QStep
  | sqMarkConflict (qid : Val) (rd : Option Dict) : QStep
  | sqRemove (qid : Val) : QStep
  | lcMarkSynced (tbl : String) (rid : Val) : QStep
  | lcEnqueue (tbl : String) (rid : Val) (opName : String) (ld rd : Option Dict) : QStep
  | bsCreate (tbl : String) (ops : List Dict) : QStep
  | bsUpdate (tbl : String) (ops : List Dict) : QStep
  | bsDelete (tbl : String) (ops : List Dict) : QStep
  | bsSyncTable (tbl : String) (ops : List Dict) : QStep

/-- Run one step; a raised exception leaves the state as the operation left
it (for the atomic cache operations: unchanged). -/
def applyQStep (env : Env) (st : SyncState) : QStep → SyncState
  | .addOperation tbl rid opName ld rd =>
    { st with ldb := (SyncQueue.add_operation env st.ldb tbl rid opName ld rd).2 }
  | .sqMarkSynced qid syncedAt =>
    { st with ldb := (SyncQueue.mark_synced env st.ldb qid syncedAt).2 }
  | .sqMarkConflict qid rd =>
    { st with ldb := (SyncQueue.mark_conflict env st.ldb qid rd).2 }
  | .sqRemove qid =>
    { st with ldb := (SyncQueue.remove_operation env st.ldb qid).2 }
  | .lcMarkSynced tbl rid =>
    { st with ldb := (LocalCache.mark_synced env st.ldb tbl rid).2 }
  | .lcEnqueue tbl rid opName ld rd =>
    { st with ldb := (LocalCache.addToSyncQueue env st.ldb tbl rid opName ld rd).2 }
  | .bsCreate tbl ops => (BatchSync.batch_create env tbl st ops).2.1
  | .bsUpdate tbl ops => (BatchSync.batch_update env tbl st ops).2.1
  | .bsDelete tbl ops => (BatchSync.batch_delete env tbl st ops).2.1
  | .bsSyncTable tbl ops =>
    match BatchSync.sync_table env tbl st ops with
    | .ok x => x.2.1
    | .error _ => st

theorem allSynced_imp_nonePending {db : DB} {qid : Val}
    (h : allSyncedFor db qid = true) : nonePendingFor db qid = true := by
  simp only [allSyncedFor, nonePendingFor, List.all_eq_true] at h ⊢
  intro r hr
  have h2 := h r hr
  cases hq : queueRowWithId qid r
  · simp [hq]
  · rw [hq] at h2
    simp only [Bool.not_true, Bool.false_or] at h2
    have : dget r.fields "status" = some (.str "synced") := by
      simpa using h2
    simp [hq, this]

theorem allSynced_filter {db : DB} {qid : Val} {p : Row → Bool}
    (h : allSyncedFor db qid = true) : allSyncedFor (db.filter p) qid = true := by
  simp only [allSyncedFor, List.all_eq_true] at h ⊢
  intro r hr
  exact h r (List.mem_of_mem_filter hr)

theorem allSynced_map {qid : Val} {f : Row → Row}
    (hf : ∀ r : Row, (f r).table = r.table ∧ dget (f r).fields "id" = dget r.fields "id" ∧
      (dget (f r).fields "status" = dget r.fields "status" ∨
       dget (f r).fields "status" = some (.str "synced")))
    {db : DB} (h : allSyncedFor db qid = true) : allSyncedFor (db.map f) qid = true := by
  simp only [allSyncedFor, List.all_eq_true] at h ⊢
  intro x hx
  rcases List.mem_map.mp hx with ⟨r, hr, rfl⟩
  obtain ⟨ht, hid, hst⟩ := hf r
  have hq : queueRowWithId qid (f r) = queueRowWithId qid r := by
    unfold queueRowWithId
    rw [ht, hid]
  have h2 := h r hr
  cases hqr : queueRowWithId qid r
  · simp [hq, hqr]
  · rw [hqr] at h2
    simp only [Bool.not_true, Bool.false_or] at h2
    rcases hst with he | he
    · simp only [hq, hqr, Bool.not_true, Bool.false_or, he]
      exact h2
    · simp [hq, hqr, he]

theorem dkeys_dset_cases (d : Dict) (k : String) (v : Val) :
    dkeys (dset d k v) = dkeys d ∨ dkeys (dset d k v) = dkeys d ++ [k] := by
  unfold dset
  by_cases ha : d.any (fun p => p.1 == k) = true
  · left
    simp only [ha, if_true, dkeys, List.map_map]
    apply List.map_congr_left
    intro p _
    by_cases hp : (p.1 == k) = true
    · simp [Function.comp, hp, (beq_iff_eq.mp hp).symm]
    · simp [Function.comp, hp]
  · right
    have ha1 : d.any (fun p => p.1 == k) = false := Bool.eq_false_iff.mpr ha
    simp [ha1, dkeys]

theorem not_mem_dkeys_dset {d : Dict} {k0 : String} (k : String) (v : Val)
    (h : k0 ∉ dkeys d) (hne : k0 ≠ k) : k0 ∉ dkeys (dset d k v) := by
  rcases dkeys_dset_cases d k v with he | he <;> rw [he]
  · exact h
  · intro hm
    rcases List.mem_append.mp hm with hm1 | hm1
    · exact h hm1
    · simp at hm1
      exact hne hm1

theorem dget_dmerge_not_mem : ∀ (u : Dict) (f : Dict) (k : String), k ∉ dkeys u →
    dget (dmerge f u) k = dget f k := by
  intro u
  induction u with
  | nil => intro f k _; rfl
  | cons p t ih =>
    intro f k h
    simp only [dkeys, List.map_cons, List.mem_cons] at h
    push_neg at h
    show dget (dmerge (dset f p.1 p.2) t) k = dget f k
    rw [ih (dset f p.1 p.2) k (by simpa [dkeys] using h.2)]
    exact dget_dset_ne f p.1 k p.2 h.1

theorem allSynced_update_map {qid : Val} (db : DB) (tbl : String) (idv : Val) (d2 : Dict)
    (hstat : "status" ∉ dkeys d2) (hid : "id" ∉ dkeys d2)
    (h : allSyncedFor db qid = true) :
    allSyncedFor (db.map (fun r =>
      if rowHasId tbl idv r then { r with fields := dmerge r.fields d2 } else r)) qid = true :=
  allSynced_map (fun r => by
    by_cases hr : rowHasId tbl idv r = true
    · simp only [hr, if_true]
      exact ⟨by simp, dget_dmerge_not_mem d2 r.fields "id" hid,
             Or.inl (dget_dmerge_not_mem d2 r.fields "status" hstat)⟩
    · simp [hr]) h

/-- A cache update whose SET clause mentions neither `status` nor `id`
preserves the all-synced property of any queue entry. -/
theorem allSynced_lc_update (env : Env) (db : DB) (tbl : String) (idv : Val)
    (data : Dict) (mp : Bool) (qid : Val)
    (hstat : "status" ∉ dkeys data) (hid : "id" ∉ dkeys data)
    (h : allSyncedFor db qid = true) :
    allSyncedFor ((LocalCache.update env db tbl idv data mp).2) qid = true := by
  unfold LocalCache.update
  cases hg : LocalCache.get db tbl idv with
  | error e => exact h
  | ok original =>
    dsimp only
    cases hs : schemaColumns tbl with
    | none => exact h
    | some cols =>
      dsimp only
      split
      · refine allSynced_update_map db tbl idv _ ?_ ?_ h
        · cases mp with
          | false => exact not_mem_dkeys_dset _ _ hstat (by decide)
          | true =>
            cases original with
            | none => exact not_mem_dkeys_dset _ _ hstat (by decide)
            | some o =>
              exact not_mem_dkeys_dset _ _ (not_mem_dkeys_dset _ _ (not_mem_dkeys_dset _ _
                (not_mem_dkeys_dset _ _ hstat (by decide)) (by decide)) (by decide)) (by decide)
        · cases mp with
          | false => exact not_mem_dkeys_dset _ _ hid (by decide)
          | true =>
            cases original with
            | none => exact not_mem_dkeys_dset _ _ hid (by decide)
            | some o =>
              exact not_mem_dkeys_dset _ _ (not_mem_dkeys_dset _ _ (not_mem_dkeys_dset _ _
                (not_mem_dkeys_dset _ _ hid (by decide)) (by decide)) (by decide)) (by decide)
      · exact h

theorem sq_add_db (env : Env) (db : DB) (tbl : String) (rid : Val) (opName : String)
    (ld rd : Option Dict) :
    (SyncQueue.add_operation env db tbl rid opName ld rd).2 = db := by
  unfold SyncQueue.add_operation
  dsimp only
  rw [insert_sync_queue_err]

theorem sq_markSynced_db (env : Env) (db : DB) (qid : Val) (sAt : Option String) :
    (SyncQueue.mark_synced env db qid sAt).2 = db := by
  unfold SyncQueue.mark_synced
  dsimp only
  rw [update_sync_queue_err]

theorem sq_markConflict_db (env : Env) (db : DB) (qid : Val) (rd : Option Dict) :
    (SyncQueue.mark_conflict env db qid rd).2 = db := by
  unfold SyncQueue.mark_conflict
  dsimp only
  rw [update_sync_queue_err]

theorem lc_enqueue_db (env : Env) (db : DB) (tbl : String) (rid : Val) (opName : String)
    (ld rd : Option Dict) :
    (LocalCache.addToSyncQueue env db tbl rid opName ld rd).2 = db := by
  rw [addToSyncQueue_err]

theorem allSynced_sqRemove (env : Env) (db : DB) (qid0 qid : Val)
    (h : allSyncedFor db qid = true) :
    allSyncedFor ((SyncQueue.remove_operation env db qid0).2) qid = true := by
  unfold SyncQueue.remove_operation LocalCache.delete
  have hcols : schemaColumns "sync_queue" =
      some ["id", "table_name", "record_id", "operation", "local_data",
            "remote_data", "status", "created_at", "synced_at"] := by decide
  rw [hcols]
  exact allSynced_filter h

/-- `LocalCache.mark_synced` preserves the all-synced property: the
bookkeeping update never touches `status`/`id` of queue rows, and the raw
queue update only ever writes `status = 'synced'`. -/
theorem allSynced_lcMarkSynced (env : Env) (db : DB) (tbl : String) (rid qid : Val)
    (h : allSyncedFor db qid = true) :
    allSyncedFor ((LocalCache.mark_synced env db tbl rid).2) qid = true := by
  unfold LocalCache.mark_synced
  dsimp only
  rw [pair_eta (LocalCache.update env db tbl rid
    [("pending_sync", .int 0), ("sync_status", .str "synced"),
     ("last_synced_at", .str env.now)] false)]
  have hupd := allSynced_lc_update env db tbl rid
    [("pending_sync", .int 0), ("sync_status", .str "synced"),
     ("last_synced_at", .str env.now)] false qid (by simp [dkeys]) (by simp [dkeys]) h
  cases hf1 : (LocalCache.update env db tbl rid
      [("pending_sync", .int 0), ("sync_status", .str "synced"),
       ("last_synced_at", .str env.now)] false).1 with
  | error e => exact hupd
  | ok b =>
    dsimp only
    exact allSynced_map (fun r => by
      by_cases hqm : queueRowMatches tbl rid r = true
      · simp only [hqm, if_true]
        exact ⟨by simp, dget_dmerge_not_mem _ _ _ (by simp [dkeys]),
               Or.inr (dget_merge_status _ _ _)⟩
      · simp [hqm]) hupd

theorem allSynced_createOne (env : Env) (tbl : String) (st : SyncState) (op : Dict)
    (qid : Val) (h : allSyncedFor st.ldb qid = true) :
    allSyncedFor (BatchSync.createOne env tbl st op).2.ldb qid = true := by
  unfold BatchSync.createOne
  dsimp only
  by_cases htr : (!((dget op "local_data").getD (.dict [])).truthy) = true
  · simp only [htr, if_true]
    exact h
  · have htr1 : (!((dget op "local_data").getD (.dict [])).truthy) = false :=
      Bool.eq_false_iff.mpr htr
    simp only [htr1, Bool.false_eq_true, if_false]
    cases hld : (dget op "local_data").getD (.dict []) <;> try exact h
    rename_i d
    dsimp only
    simp only [Remote.insert]
    rw [pair_eta (LocalCache.mark_synced env st.ldb tbl ((dget d "id").getD Val.null))]
    have hms := allSynced_lcMarkSynced env st.ldb tbl ((dget d "id").getD Val.null) qid h
    cases hf1 : (LocalCache.mark_synced env st.ldb tbl ((dget d "id").getD Val.null)).1 with
    | error e => exact hms
    | ok u =>
      dsimp only
      cases hoid : dget op "id" with
      | none => exact hms
      | some qidv =>
        dsimp only
        rw [pair_eta (SyncQueue.mark_synced env
          (LocalCache.mark_synced env st.ldb tbl ((dget d "id").getD Val.null)).2 qidv none)]
        rw [sq_markSynced_db]
        cases hf2 : (SyncQueue.mark_synced env
            (LocalCache.mark_synced env st.ldb tbl
              ((dget d "id").getD Val.null)).2 qidv none).1 <;> exact hms

theorem allSynced_updateOne (env : Env) (tbl : String) (st : SyncState) (op : Dict)
    (qid : Val) (h : allSyncedFor st.ldb qid = true) :
    allSyncedFor (BatchSync.updateOne env tbl st op).2.ldb qid = true := by
  unfold BatchSync.updateOne
  cases hrid : dget op "record_id" with
  | none => exact h
  | some ridv =>
    dsimp only
    by_cases htr : (!((dget op "local_data").getD (.dict [])).truthy) = true
    · simp only [htr, if_true]
      exact h
    · have htr1 : (!((dget op "local_data").getD (.dict [])).truthy) = false :=
        Bool.eq_false_iff.mpr htr
      simp only [htr1, Bool.false_eq_true, if_false]
      cases hld : (dget op "local_data").getD (.dict []) <;> try exact h
      rename_i d
      dsimp only
      cases hcc : ConflictHandler.check_conflict env st.rdb tbl ridv d with
      | some c =>
        dsimp only
        cases hoid : dget op "id" with
        | none => exact h
        | some qidv =>
          dsimp only
          rw [pair_eta (SyncQueue.mark_conflict env st.ldb qidv
            (match dget c "remote_data" with
             | some (Val.dict rd) => some rd
             | _ => none))]
          rw [sq_markConflict_db]
          cases hf : (SyncQueue.mark_conflict env st.ldb qidv
              (match dget c "remote_data" with
               | some (Val.dict rd) => some rd
               | _ => none)).1 <;> exact h
      | none =>
        dsimp only
        rw [pair_eta (Remote.updateEq st.rdb tbl (stripSyncFields d) "id" ridv)]
        by_cases hre : (!((Remote.updateEq st.rdb tbl (stripSyncFields d) "id" ridv).1).isEmpty) = true
        · simp only [hre, if_true]
          rw [pair_eta (LocalCache.mark_synced env st.ldb tbl ridv)]
          have hms := allSynced_lcMarkSynced env st.ldb tbl ridv qid h
          cases hf1 : (LocalCache.mark_synced env st.ldb tbl ridv).1 with
          | error e => exact hms
          | ok u =>
            dsimp only
            cases hoid : dget op "id" with
            | none => exact hms
            | some qidv =>
              dsimp only
              rw [pair_eta (SyncQueue.mark_synced env
                (LocalCache.mark_synced env st.ldb tbl ridv).2 qidv none)]
              rw [sq_markSynced_db]
              cases hf2 : (SyncQueue.mark_synced env
                  (LocalCache.mark_synced env st.ldb tbl ridv).2 qidv none).1 <;> exact hms
        · have hre1 : (!((Remote.updateEq st.rdb tbl (stripSyncFields d) "id" ridv).1).isEmpty) = false :=
            Bool.eq_false_iff.mpr hre
          simp only [hre1, Bool.false_eq_true, if_false]
          exact h

theorem allSynced_deleteOne (env : Env) (tbl : String) (st : SyncState) (op : Dict)
    (qid : Val) (h : allSyncedFor st.ldb qid = true) :
    allSyncedFor (BatchSync.deleteOne env tbl st op).2.ldb qid = true := by
  unfold BatchSync.deleteOne
  cases hrid : dget op "record_id" with
  | none => exact h
  | some ridv =>
    dsimp only
    cases hoid : dget op "id" with
    | none => exact h
    | some qidv =>
      dsimp only
      rw [pair_eta (SyncQueue.remove_operation env st.ldb qidv)]
      cases hf : (SyncQueue.remove_operation env st.ldb qidv).1 <;>
        exact allSynced_sqRemove env st.ldb qidv qid h

theorem allSynced_batchCreate (env : Env) (tbl : String) :
    ∀ (l : List Dict) (st : SyncState) (qid : Val), allSyncedFor st.ldb qid = true →
      allSyncedFor (BatchSync.batch_create env tbl st l).2.1.ldb qid = true := by
  intro l
  induction l with
  | nil => intro st qid h; exact h
  | cons op rest ih =>
    intro st qid h
    unfold BatchSync.batch_create
    dsimp only
    exact ih _ _ (allSynced_createOne env tbl st op qid h)

theorem allSynced_batchUpdate (env : Env) (tbl : String) :
    ∀ (l : List Dict) (st : SyncState) (qid : Val), allSyncedFor st.ldb qid = true →
      allSyncedFor (BatchSync.batch_update env tbl st l).2.1.ldb qid = true := by
  intro l
  induction l with
  | nil => intro st qid h; exact h
  | cons op rest ih =>
    intro st qid h
    unfold BatchSync.batch_update
    dsimp only
    exact ih _ _ (allSynced_updateOne env tbl st op qid h)

theorem allSynced_batchDelete (env : Env) (tbl : String) :
    ∀ (l : List Dict) (st : SyncState) (qid : Val), allSyncedFor st.ldb qid = true →
      allSyncedFor (BatchSync.batch_delete env tbl st l).2.1.ldb qid = true := by
  intro l
  induction l with
  | nil => intro st qid h; exact h
  | cons op rest ih =>
    intro st qid h
    unfold BatchSync.batch_delete
    dsimp only
    exact ih _ _ (allSynced_deleteOne env tbl st op qid h)

theorem allSynced_syncTable (env : Env) (tbl : String) (st : SyncState)
    (ops : List Dict) (qid : Val) (h : allSyncedFor st.ldb qid = true) :
    allSyncedFor ((match BatchSync.sync_table env tbl st ops with
      | .ok x => x.2.1
      | .error _ => st).ldb) qid = true := by
  unfold BatchSync.sync_table
  by_cases he : ops.isEmpty = true
  · simp only [he, if_true]
    exact h
  · have he1 : ops.isEmpty = false := Bool.eq_false_iff.mpr he
    simp only [he1, Bool.false_eq_true, if_false]
    by_cases hall : (ops.all fun op => (dget op "operation").isSome) = true
    · simp only [hall, if_true]
      exact allSynced_batchDelete env tbl _ _ qid
        (allSynced_batchUpdate env tbl _ _ qid
          (allSynced_batchCreate env tbl _ _ qid h))
    · have hall1 : (ops.all fun op => (dget op "operation").isSome) = false :=
        Bool.eq_false_iff.mpr hall
      simp only [hall1, Bool.false_eq_true, if_false]
      exact h

theorem sqlEq_eq {a b : Val} (h : sqlEq a b = true) : a = b := by
  unfold sqlEq at h
  cases a <;> cases b <;> first | (exact eq_of_beq h) | (cases h)

theorem dget_of_sqlEq_str {x : Option Val} {s : String}
    (h : sqlEq (x.getD .null) (.str s) = true) : x = some (.str s) := by
  cases x with
  | none => cases h
  | some v =>
    simp only [Option.getD] at h
    rw [sqlEq_eq h]

theorem dget_decodePayloadField_ne (env : Env) (d : Dict) (k k0 : String)
    (hne : k0 ≠ k) : dget (decodePayloadField env d k) k0 = dget d k0 := by
  unfold decodePayloadField
  split
  · split
    · split
      · exact dget_dset_ne _ _ _ _ hne
      · rfl
    · rfl
  · rfl

theorem dget_rowDict_status (f : Dict) :
    dget (rowDict ["id", "table_name", "record_id", "operation", "local_data",
      "remote_data", "status", "created_at", "synced_at"] f) "status" =
      some ((dget f "status").getD .null) := rfl

/-- Claim C8: once a `sync_queue` entry is `synced`, no operation of
`SyncQueue` or `BatchSync` (including the compound batch passes) ever sets
it back to `pending` — if every queue row with a given id is `synced`
before a step, none is `pending` after it — and `get_pending_operations`
only ever returns entries whose status is `pending` (hence never a
`synced` one). -/
theorem C8_queue_monotonicity :
    (∀ (env : Env) (st : SyncState) (s : QStep) (qid : Val),
      allSyncedFor st.ldb qid = true →
      nonePendingFor (applyQStep env st s).ldb qid = true) ∧
    (∀ (env : Env) (db : DB) (tblF : Option String) (lim : Option Nat) (ops : List Dict),
      SyncQueue.get_pending_operations env db tblF lim = .ok ops →
      ∀ d ∈ ops, dget d "status" = some (.str "pending")) := by
  have hcols : schemaColumns "sync_queue" =
      some ["id", "table_name", "record_id", "operation", "local_data",
            "remote_data", "status", "created_at", "synced_at"] := by decide
  constructor
  · intro env st s qid h
    apply allSynced_imp_nonePending
    cases s with
    | addOperation tbl rid opName ld rd =>
      dsimp only [applyQStep]
      rw [sq_add_db]
      exact h
    | sqMarkSynced qid0 syncedAt =>
      dsimp only [applyQStep]
      rw [sq_markSynced_db]
      exact h
    | sqMarkConflict qid0 rd =>
      dsimp only [applyQStep]
      rw [sq_markConflict_db]
      exact h
    | sqRemove qid0 =>
      dsimp only [applyQStep]
      exact allSynced_sqRemove env st.ldb qid0 qid h
    | lcMarkSynced tbl rid =>
      dsimp only [applyQStep]
      exact allSynced_lcMarkSynced env st.ldb tbl rid qid h
    | lcEnqueue tbl rid opName ld rd =>
      dsimp only [applyQStep]
      rw [lc_enqueue_db]
      exact h
    | bsCreate tbl ops => exact allSynced_batchCreate env tbl ops st qid h
    | bsUpdate tbl ops => exact allSynced_batchUpdate env tbl ops st qid h
    | bsDelete tbl ops => exact allSynced_batchDelete env tbl ops st qid h
    | bsSyncTable tbl ops =>
      dsimp only [applyQStep]
      exact allSynced_syncTable env tbl st ops qid h
  · intro env db tblF lim ops hok d hd
    cases tblF with
    | none =>
      unfold SyncQueue.get_pending_operations at hok
      dsimp only at hok
      unfold LocalCache.query at hok
      rw [hcols] at hok
      dsimp only at hok
      split at hok
      · exact absurd hok (by simp)
      · rename_i rows heq
        split at heq
        · simp only [Except.ok.injEq] at heq
          subst heq
          simp only [Except.ok.injEq] at hok
          subst hok
          rcases List.mem_map.mp hd with ⟨d0, hd0, rfl⟩
          rw [dget_decodePayloadField_ne _ _ _ _ (by decide),
              dget_decodePayloadField_ne _ _ _ _ (by decide)]
          have hd2 : d0 ∈ (db.filter (fun r => r.table == "sync_queue" &&
              [("status", Val.str "pending")].all
                (fun p => sqlEq ((dget r.fields p.1).getD .null) p.2))).map
              (fun r => rowDict ["id", "table_name", "record_id", "operation",
                "local_data", "remote_data", "status", "created_at", "synced_at"] r.fields) := by
            cases lim with
            | none => exact hd0
            | some n =>
              by_cases hn : (n == 0) = true
              · simpa [applyLimit, hn] using hd0
              · have hn1 : (n == 0) = false := Bool.eq_false_iff.mpr hn
                simp only [applyLimit, hn1, Bool.false_eq_true, if_false] at hd0
                exact List.take_subset _ _ hd0
          rcases List.mem_map.mp hd2 with ⟨r1, hr1, rfl⟩
          rw [dget_rowDict_status]
          have hp := (List.mem_filter.mp hr1).2
          simp only [Bool.and_eq_true, List.all_cons, List.all_nil, Bool.and_true] at hp
          rw [dget_of_sqlEq_str hp.2]
          rfl
        · exact absurd heq (by simp)
    | some t =>
      unfold SyncQueue.get_pending_operations at hok
      dsimp only at hok
      unfold LocalCache.query at hok
      rw [hcols] at hok
      dsimp only at hok
      split at hok
      · exact absurd hok (by simp)
      · rename_i rows heq
        split at heq
        · simp only [Except.ok.injEq] at heq
          subst heq
          simp only [Except.ok.injEq] at hok
          subst hok
          rcases List.mem_map.mp hd with ⟨d0, hd0, rfl⟩
          rw [dget_decodePayloadField_ne _ _ _ _ (by decide),
              dget_decodePayloadField_ne _ _ _ _ (by decide)]
          have hd2 : d0 ∈ (db.filter (fun r => r.table == "sync_queue" &&
              [("status", Val.str "pending"), ("table_name", Val.str t)].all
                (fun p => sqlEq ((dget r.fields p.1).getD .null) p.2))).map
              (fun r => rowDict ["id", "table_name", "record_id", "operation",
                "local_data", "remote_data", "status", "created_at", "synced_at"] r.fields) := by
            cases lim with
            | none => exact hd0
            | some n =>
              by_cases hn : (n == 0) = true
              · simpa [applyLimit, hn] using hd0
              · have hn1 : (n == 0) = false := Bool.eq_false_iff.mpr hn
                simp only [applyLimit, hn1, Bool.false_eq_true, if_false] at hd0
                exact List.take_subset _ _ hd0
          rcases List.mem_map.mp hd2 with ⟨r1, hr1, rfl⟩
          rw [dget_rowDict_status]
          have hp := (List.mem_filter.mp hr1).2
          simp only [Bool.and_eq_true, List.all_cons, List.all_nil, Bool.and_true] at hp
          rw [dget_of_sqlEq_str hp.2.1]
          rfl
        · exact absurd heq (by simp)

/-- A queue entry already synced. -/
def qrowS : Dict :=
  [("id", .str "qs"), ("table_name", .str "clients"), ("record_id", .str "c1"),
   ("operation", .str "update"), ("local_data", .null), ("remote_data", .null),
   ("status", .str "synced"), ("created_at", .str "T0"), ("synced_at", .str "T1")]

/-- A state with one synced queue entry. -/
def stW8 : SyncState := ⟨[⟨"sync_queue", qrowS⟩], []⟩

/-- A database with one pending queue entry. -/
def dbP8 : DB :=
  [⟨"sync_queue",
    [("id", .str "qp"), ("table_name", .str "clients"), ("record_id", .str "c2"),
     ("operation", .str "create"), ("local_data", .null), ("remote_data", .null),
     ("status", .str "pending"), ("created_at", .str "T0"), ("synced_at", .null)]⟩]

/-- The pending operations `get_pending_operations` returns on `dbP8`. -/
def opsP8 : List Dict :=
  match SyncQueue.get_pending_operations envX dbP8 none none with
  | .ok l => l
  | .error _ => []

/-- The first of those operations. -/
def opP8 : Dict := opsP8.headD []

/-- Witness for C8: after a concrete `mark_synced` step on a state whose
only queue entry is synced, that entry is still not pending; and a concrete
entry returned by `get_pending_operations` has status `pending`. -/
theorem C8_witness :
    nonePendingFor (applyQStep envX stW8
      (QStep.lcMarkSynced "clients" (Val.str "c1"))).ldb (Val.str "qs") = true ∧
    dget opP8 "status" = some (Val.str "pending") :=
  ⟨C8_queue_monotonicity.1 envX stW8
      (QStep.lcMarkSynced "clients" (Val.str "c1")) (Val.str "qs") (by decide),
   C8_queue_monotonicity.2 envX dbP8 none none opsP8 (by rfl) opP8 (by decide)⟩
